import Mathlib

/-! Castor & Pollux firmware: the control cycle of `firmware/src/main.c`.

A shallow embedding of `init()`, `loop()` and one pass of the polling loop of `main()`.

* Machine integers are `Int` values with explicit wrap-around at the C type's width.
* `fix16_t` is a signed 32-bit Q16.16 number, represented by its raw `Int` value.
* The functions that `main.c` calls but does not define (`fix16.h`, `gem.h`) are taken
  as parameters: `Fix16` holds the fixed-point operations, `Gem` the remaining helpers.
  `libfixmath` is a concrete model of the fixed-point operations.
* Calls to peripherals are recorded in an effect trace (`List Effect`).
-/

namespace CastorPollux

/-! ## Machine integers -/

/-- Conversion to `uint32_t`. -/
def wrap_u32 (i : Int) : Int := i % 4294967296

/-- Conversion to `uint16_t`. -/
def wrap_u16 (i : Int) : Int := i % 65536

/-- Conversion to `int32_t` / `int` / `fix16_t` (two's complement). -/
def wrap_i32 (i : Int) : Int := (i + 2147483648) % 4294967296 - 2147483648

/-- The macro `F16(x)` of `fix16.h` at a whole number `x`: `x * 65536`
(the macro rounds `x * 65536.0`, which is exact for whole numbers). -/
def F16 (x : Int) : Int := x * 65536

/-! ## Fixed-point operations (`fix16.h`, not part of the translated file) -/

/-- The operations of `fix16.h` used by `main.c`, on raw `fix16_t` values. The argument of
`fix16_from_int` is a C `int`. -/
structure Fix16 where
  fix16_add : Int → Int → Int
  fix16_sub : Int → Int → Int
  fix16_mul : Int → Int → Int
  fix16_div : Int → Int → Int
  fix16_from_int : Int → Int

/-- The value `fix16_overflow` (`0x80000000`) returned by the checked operations. -/
def fix16_overflow : Int := -2147483648

/-- The value `fix16_minimum` (`0x80000000`). -/
def fix16_minimum : Int := -2147483648

/-- Modelled from the spec: `fix16_add` of the fixed-point library (`fix16.h`), which is
not among the source files; the spec (section 2) names it as deterministic signed
fixed-point addition with defined overflow behaviour. The sum is taken in 32 bits; unless
the library is built without overflow detection (`no_overflow`), a sum of two operands of
equal sign whose sign differs from theirs yields `fix16_overflow`. -/
def lfm_add (no_overflow : Bool) (a b : Int) : Int :=
  let sum := wrap_i32 (a + b)
  if no_overflow then sum
  else if (decide (0 ≤ a) = decide (0 ≤ b)) ∧ (decide (0 ≤ a) ≠ decide (0 ≤ sum)) then fix16_overflow
  else sum

/-- Modelled from the spec: `fix16_sub` of the fixed-point library (`fix16.h`), missing
from the source files. The difference is taken in 32 bits; with overflow detection, a
difference of operands of unequal sign whose sign differs from the first operand's yields
`fix16_overflow`. -/
def lfm_sub (no_overflow : Bool) (a b : Int) : Int :=
  let diff := wrap_i32 (a - b)
  if no_overflow then diff
  else if (decide (0 ≤ a) ≠ decide (0 ≤ b)) ∧ (decide (0 ≤ a) ≠ decide (0 ≤ diff)) then fix16_overflow
  else diff

/-- Modelled from the spec: `fix16_mul` of the fixed-point library (`fix16.h`), missing
from the source files: the 64-bit product of the raw values shifted right by 16 bits. With
overflow detection a product outside the 48-bit window yields `fix16_overflow`; with
rounding the result is rounded to nearest (a negative product is decremented first, then
bit 15 is added); without rounding the shift truncates toward minus infinity. -/
def lfm_mul (no_overflow no_rounding : Bool) (a b : Int) : Int :=
  let product := a * b
  if !no_overflow && (if product < 0 then decide (product / 140737488355328 ≠ -1)
                      else decide (product / 140737488355328 ≠ 0)) then fix16_overflow
  else if no_rounding then wrap_i32 (product / 65536)
  else
    let p := if product < 0 then product - 1 else product
    wrap_i32 (wrap_i32 (p / 65536) + (p % 65536) / 32768)

/-- Modelled from the spec: `fix16_div` of the fixed-point library (`fix16.h`), missing
from the source files: the quotient of the raw values scaled by 65536. Division by zero
yields `fix16_minimum`. The library divides the absolute values, as a 32-bit unsigned
quotient `|a| * 2^17 / |b|`, adds 1 unless built without rounding, halves, and negates the
result when the signs differ; with overflow detection a quotient that needs more than 32
bits yields `fix16_overflow`. -/
def lfm_div (no_overflow no_rounding : Bool) (a b : Int) : Int :=
  if b = 0 then fix16_minimum
  else
    let quotient := (a.natAbs : Int) * 131072 / (b.natAbs : Int)
    if !no_overflow && decide (4294967296 ≤ quotient) then fix16_overflow
    else
      let quotient := wrap_u32 quotient
      let quotient := if no_rounding then quotient else wrap_u32 (quotient + 1)
      let result := wrap_i32 (quotient / 2)
      if decide (0 ≤ a) ≠ decide (0 ≤ b) then
        if !no_overflow && decide (result = fix16_minimum) then fix16_overflow
        else wrap_i32 (-result)
      else result

/-- Modelled from the spec: `fix16_from_int` of the fixed-point library (`fix16.h`),
missing from the source files: the `int` argument times `fix16_one`, in 32 bits. -/
def lfm_from_int (a : Int) : Int := wrap_i32 (a * 65536)

/-- Modelled from the spec: the fixed-point library (`fix16.h`) as a whole, for each
combination of its two build switches (overflow detection off, rounding off). -/
def libfixmath (no_overflow no_rounding : Bool) : Fix16 where
  fix16_add := lfm_add no_overflow
  fix16_sub := lfm_sub no_overflow
  fix16_mul := lfm_mul no_overflow no_rounding
  fix16_div := lfm_div no_overflow no_rounding
  fix16_from_int := lfm_from_int

/-! ## Data model -/

/-- The fields of `struct gem_settings` (declared in `gem.h`) that `main.c` reads, and
`castor_knob_max`, the upper bound that pairs with `castor_knob_min`. The threshold and
the three `uint16_t` driver settings are unsigned; the rest are `fix16_t`. -/
structure gem_settings where
  adc_gain_corr : Int
  adc_offset_corr : Int
  led_brightness : Int
  castor_knob_min : Int
  castor_knob_max : Int
  pollux_knob_min : Int
  pollux_knob_max : Int
  chorus_max_intensity : Int
  chorus_frequency : Int
  knob_offset_corr : Int
  knob_gain_corr : Int
  smooth_initial_gain : Int
  smooth_sensitivity : Int
  pollux_follower_threshold : Int
deriving DecidableEq, Repr

/-- The `struct gem_adc_errors`. -/
structure gem_adc_errors where
  offset : Int
  gain : Int
deriving DecidableEq, Repr

/-- The `struct gem_smoothie_state`. -/
structure gem_smoothie_state where
  initial_gain : Int
  sensitivity : Int
  _lowpass1 : Int
  _lowpass2 : Int
deriving DecidableEq, Repr

/-- The member `voltage_and_period` of `struct gem_voice_params`. -/
structure gem_voltage_and_period where
  voltage : Int
  period : Int
deriving DecidableEq, Repr

/-- The member `dac_codes` of `struct gem_voice_params`. -/
structure gem_dac_codes where
  castor : Int
  pollux : Int
deriving DecidableEq, Repr

/-- The `struct gem_voice_params`. -/
structure gem_voice_params where
  voltage_and_period : gem_voltage_and_period
  dac_codes : gem_dac_codes
deriving DecidableEq, Repr

/-- The `struct lfo_state` (lines 12-15). -/
structure lfo_state where
  phase : Int
  last_update : Int
deriving DecidableEq, Repr

/-- The `struct oscillator_state` (lines 17-21). -/
structure oscillator_state where
  params : gem_voice_params
  smooth : gem_smoothie_state
  knob_range : Int
deriving DecidableEq, Repr

/-- The array `adc_results` (line 7), one `uint32_t` entry per input channel; the fields
are the entries at the indices `GEM_IN_CV_A`, `GEM_IN_CV_A_POT`, ... that `loop()` reads.
The scanning ADC writes the array; the program only reads it. -/
structure adc_results where
  GEM_IN_CV_A : Int
  GEM_IN_CV_A_POT : Int
  GEM_IN_CV_B : Int
  GEM_IN_CV_B_POT : Int
  GEM_IN_DUTY_A : Int
  GEM_IN_DUTY_A_POT : Int
  GEM_IN_DUTY_B : Int
  GEM_IN_DUTY_B_POT : Int
  GEM_IN_CHORUS_POT : Int
deriving DecidableEq, Repr

/-- The file-scope variables of `main.c` that the program itself writes (lines 6-39). -/
structure State where
  settings : gem_settings
  knob_errors : gem_adc_errors
  hard_sync : Bool
  lfo : lfo_state
  castor : oscillator_state
  pollux : oscillator_state
deriving DecidableEq, Repr

/-- The helpers and constants of `gem.h` used by `loop()`, which `main.c` does not define.
`gem_smoothie_step` returns the updated filter state and the smoothed value;
`gem_voice_params_from_cv` (with the loaded tables) maps a pitch CV and the previous
contents of the output struct to its new contents. -/
structure Gem where
  GEM_CV_BASE_OFFSET : Int
  GEM_CV_INPUT_RANGE : Int
  gem_adc_correct_errors : Int → gem_adc_errors → Int
  gem_smoothie_step : gem_smoothie_state → Int → gem_smoothie_state × Int
  gem_triangle : Int → Int
  gem_voice_params_from_cv : Int → gem_voice_params → gem_voice_params

/-- What the environment supplies to one run of `loop()`: the contents of `adc_results`,
the value returned by `gem_get_ticks()` and the value returned by `gem_button_tapped()`
after `gem_button_update()`. -/
structure cycle_input where
  adc : adc_results
  now : Int
  tapped : Bool
deriving DecidableEq, Repr

/-- The modes passed to `gem_led_animation_set_mode`. -/
inductive gem_led_mode where
  | GEM_LED_MODE_NORMAL
  | GEM_LED_MODE_HARD_SYNC
deriving DecidableEq, Repr

/-- The `struct gem_mcp4728_channel` compound literal: members not named are zero. -/
structure gem_mcp4728_channel where
  value : Int
  vref : Int
deriving DecidableEq, Repr

/-- Calls to peripherals and to the interrupt mask, in program order. -/
inductive Effect where
  | gem_usb_task
  | gem_midi_task
  | gem_led_animation_step
  | gem_button_update
  | gem_pulseout_hard_sync (state : Bool)
  | gem_led_animation_set_mode (mode : gem_led_mode)
  | disable_irq
  | gem_pulseout_set_period (channel : Int) (period : Int)
  | enable_irq
  | gem_mcp_4728_write_channels (a b c d : gem_mcp4728_channel)
deriving DecidableEq, Repr

/-! ## `init()` -/

/-- The file-scope initialisers (lines 6-39): statics without an initialiser are zero. -/
def initial_state : State where
  settings := ⟨0, 0, 0, 0, 0, 0, 0, 0, 0, 0, 0, 0, 0, 0⟩
  knob_errors := ⟨0, 0⟩
  hard_sync := false
  lfo := ⟨F16 0, 0⟩
  castor := ⟨⟨⟨0, 0⟩, ⟨0, 0⟩⟩, ⟨0, 0, F16 0, F16 0⟩, 0⟩
  pollux := ⟨⟨⟨0, 0⟩, ⟨0, 0⟩⟩, ⟨0, 0, F16 0, F16 0⟩, 0⟩

/-- The writes of `init()` (lines 41-96) to the file-scope variables; `loaded` is what
`gem_settings_load` stores into `settings`. The other calls of `init()` bring up
peripherals and do not touch these variables. -/
def init (F : Fix16) (loaded : gem_settings) (s : State) : State :=
  let settings := loaded
  let knob_errors : gem_adc_errors := ⟨settings.knob_offset_corr, settings.knob_gain_corr⟩
  let castor : oscillator_state :=
    { s.castor with
      knob_range := F.fix16_sub settings.pollux_knob_max settings.pollux_knob_min
      smooth := { s.castor.smooth with
                  initial_gain := settings.smooth_initial_gain
                  sensitivity := settings.smooth_sensitivity } }
  let pollux : oscillator_state :=
    { s.pollux with
      knob_range := F.fix16_sub settings.pollux_knob_max settings.pollux_knob_min
      smooth := { s.pollux.smooth with
                  initial_gain := settings.smooth_initial_gain
                  sensitivity := settings.smooth_sensitivity } }
  { s with settings := settings, knob_errors := knob_errors, castor := castor, pollux := pollux }

/-! ## `loop()` -/

/-- Lines 104 and 134: `uint16_t code = (4095 - adc_results[i])`, the subtraction in
`uint32_t`, the result converted to `uint16_t`. -/
def inverted_code (adc : Int) : Int := wrap_u16 (wrap_u32 (4095 - adc))

/-- Lines 105-107 and 137-138: the base pitch voltage of a `uint16_t` CV code. -/
def base_pitch_voltage (F : Fix16) (G : Gem) (code : Int) : Int :=
  let value := F.fix16_div (F.fix16_from_int code) (F16 4095)
  F.fix16_add G.GEM_CV_BASE_OFFSET (F.fix16_mul G.GEM_CV_INPUT_RANGE value)

/-- Lines 109-113 and 141-145: the fine-tune voltage of a tuning knob. The argument of
`fix16_from_int` is the `uint32_t` difference converted to `int`. -/
def pitch_knob (F : Fix16) (G : Gem) (knob_errors : gem_adc_errors) (knob_min knob_range : Int)
    (pot : Int) : Int :=
  let code := G.gem_adc_correct_errors (F.fix16_from_int (wrap_i32 (wrap_u32 (4095 - pot)))) knob_errors
  let value := F.fix16_div code (F16 4095)
  F.fix16_add knob_min (F.fix16_mul knob_range value)

/-- Line 160, right-hand side: the phase increment for `lfo_delta` elapsed ticks. -/
def lfo_increment (F : Fix16) (chorus_frequency : Int) (lfo_delta : Int) : Int :=
  F.fix16_mul (F.fix16_div chorus_frequency (F16 1000)) (F.fix16_from_int (wrap_i32 lfo_delta))

/-- Lines 157-166: the LFO update. `+=` on `fix16_t` is a plain 32-bit addition. -/
def lfo_update (F : Fix16) (chorus_frequency : Int) (lfo : lfo_state) (now : Int) : lfo_state :=
  let lfo_delta := wrap_u32 (now - lfo.last_update)
  if lfo_delta > 0 then
    let phase := wrap_i32 (lfo.phase + lfo_increment F chorus_frequency lfo_delta)
    let phase := if phase > F16 1 then F.fix16_sub phase (F16 1) else phase
    { phase := phase, last_update := now }
  else lfo

/-- Lines 168-171: the chorus modulation at a given LFO phase. -/
def chorus_mod (F : Fix16) (G : Gem) (chorus_max_intensity : Int) (chorus_pot : Int) (phase : Int) : Int :=
  let lfo_amount_code := inverted_code chorus_pot
  let lfo_amount := F.fix16_div (F.fix16_from_int lfo_amount_code) (F16 4095)
  F.fix16_mul chorus_max_intensity (F.fix16_mul lfo_amount (G.gem_triangle phase))

/-- Lines 177-184 for one of the two pitch CVs: first the lower, then the upper limit. -/
def clamp_pitch_cv (v : Int) : Int :=
  let v := if v < F16 0 then F16 0 else v
  if v > F16 7 then F16 7 else v

/-- Lines 190-193 and 194-197: the duty code. The first term is converted to `uint16_t`;
the `+=` adds in `uint32_t` and converts back to `uint16_t`. -/
def duty_code (pot cv : Int) : Int :=
  let duty := wrap_u16 (wrap_u32 (4095 - pot))
  let duty := wrap_u16 (wrap_u32 (duty + wrap_u32 (4095 - cv)))
  if duty > 4095 then 4095 else duty

/-- Lines 202-213: the hard sync check; returns the new flag and the calls made. -/
def hard_sync_check (hard_sync : Bool) (tapped : Bool) : Bool × List Effect :=
  if tapped then
    let hard_sync := !hard_sync
    if hard_sync then
      (hard_sync, [Effect.gem_button_update, Effect.gem_pulseout_hard_sync true,
                   Effect.gem_led_animation_set_mode gem_led_mode.GEM_LED_MODE_HARD_SYNC])
    else
      (hard_sync, [Effect.gem_button_update, Effect.gem_pulseout_hard_sync false,
                   Effect.gem_led_animation_set_mode gem_led_mode.GEM_LED_MODE_NORMAL])
  else (hard_sync, [Effect.gem_button_update])

/-- The values of the local variables of `loop()` at the places named, the file-scope
variables after the call and the calls made. -/
structure loop_result where
  /-- `castor_pitch_cv` after line 107. -/
  castor_base : Int
  /-- `castor_pitch_knob`, line 112. -/
  castor_pitch_knob : Int
  /-- `castor_pitch_cv` after line 115. -/
  castor_pitch_cv_resolved : Int
  /-- `pollux_pitch_cv_code`, line 134. -/
  pollux_pitch_cv_code : Int
  /-- `pollux_pitch_cv` after line 139. -/
  pollux_base : Int
  /-- `pollux_pitch_knob`, line 144. -/
  pollux_pitch_knob : Int
  /-- `pollux_pitch_cv` after line 147. -/
  pollux_pitch_cv_resolved : Int
  /-- `castor_pitch_cv` after line 150. -/
  castor_smoothed : Int
  /-- `pollux_pitch_cv` after line 151. -/
  pollux_smoothed : Int
  /-- `chorus_lfo_mod`, line 171. -/
  chorus_lfo_mod : Int
  /-- `castor_pitch_cv` before line 177. -/
  castor_unclamped : Int
  /-- `pollux_pitch_cv` after line 172. -/
  pollux_unclamped : Int
  /-- `castor_pitch_cv` as passed at line 222. -/
  castor_pitch_cv : Int
  /-- `pollux_pitch_cv` as passed at line 228. -/
  pollux_pitch_cv : Int
  /-- `castor_duty` after line 193. -/
  castor_duty : Int
  /-- `pollux_duty` after line 197. -/
  pollux_duty : Int
  state : State
  effects : List Effect

/-- The function `loop()` (lines 98-249). -/
def loop (F : Fix16) (G : Gem) (s : State) (i : cycle_input) : loop_result :=
  -- lines 104-115
  let castor_pitch_cv_code := inverted_code i.adc.GEM_IN_CV_A
  let castor_base := base_pitch_voltage F G castor_pitch_cv_code
  let castor_pitch_knob :=
    pitch_knob F G s.knob_errors s.settings.castor_knob_min s.castor.knob_range i.adc.GEM_IN_CV_A_POT
  let castor_pitch_cv := F.fix16_add castor_base castor_pitch_knob
  let castor_pitch_cv_resolved := castor_pitch_cv
  -- lines 132-147
  let pollux_pitch_cv := castor_pitch_cv
  let pollux_pitch_cv_code := inverted_code i.adc.GEM_IN_CV_B
  let pollux_pitch_cv :=
    if pollux_pitch_cv_code > s.settings.pollux_follower_threshold then
      base_pitch_voltage F G pollux_pitch_cv_code
    else pollux_pitch_cv
  let pollux_base := pollux_pitch_cv
  let pollux_pitch_knob :=
    pitch_knob F G s.knob_errors s.settings.pollux_knob_min s.pollux.knob_range i.adc.GEM_IN_CV_B_POT
  let pollux_pitch_cv := F.fix16_add pollux_pitch_cv pollux_pitch_knob
  let pollux_pitch_cv_resolved := pollux_pitch_cv
  -- lines 150-151
  let castor_step := G.gem_smoothie_step s.castor.smooth castor_pitch_cv
  let castor_pitch_cv := castor_step.2
  let pollux_step := G.gem_smoothie_step s.pollux.smooth pollux_pitch_cv
  let pollux_pitch_cv := pollux_step.2
  let pollux_smoothed := pollux_pitch_cv
  -- lines 156-172
  let lfo := lfo_update F s.settings.chorus_frequency s.lfo i.now
  let chorus_lfo_mod := chorus_mod F G s.settings.chorus_max_intensity i.adc.GEM_IN_CHORUS_POT lfo.phase
  let pollux_pitch_cv := F.fix16_add pollux_pitch_cv chorus_lfo_mod
  let castor_unclamped := castor_pitch_cv
  let pollux_unclamped := pollux_pitch_cv
  -- lines 177-184
  let castor_pitch_cv := clamp_pitch_cv castor_pitch_cv
  let pollux_pitch_cv := clamp_pitch_cv pollux_pitch_cv
  -- lines 190-197
  let castor_duty := duty_code i.adc.GEM_IN_DUTY_A_POT i.adc.GEM_IN_DUTY_A
  let pollux_duty := duty_code i.adc.GEM_IN_DUTY_B_POT i.adc.GEM_IN_DUTY_B
  -- lines 202-213
  let sync := hard_sync_check s.hard_sync i.tapped
  -- lines 218-229
  let castor_params := G.gem_voice_params_from_cv castor_pitch_cv s.castor.params
  let pollux_params := G.gem_voice_params_from_cv pollux_pitch_cv s.pollux.params
  -- lines 236-248
  let commit : List Effect :=
    [Effect.disable_irq,
     Effect.gem_pulseout_set_period 0 castor_params.voltage_and_period.period,
     Effect.gem_pulseout_set_period 1 pollux_params.voltage_and_period.period,
     Effect.enable_irq,
     Effect.gem_mcp_4728_write_channels
       ⟨castor_params.dac_codes.castor, 1⟩ ⟨castor_duty, 0⟩
       ⟨pollux_params.dac_codes.pollux, 1⟩ ⟨pollux_duty, 0⟩]
  { castor_base := castor_base
    castor_pitch_knob := castor_pitch_knob
    castor_pitch_cv_resolved := castor_pitch_cv_resolved
    pollux_pitch_cv_code := pollux_pitch_cv_code
    pollux_base := pollux_base
    pollux_pitch_knob := pollux_pitch_knob
    pollux_pitch_cv_resolved := pollux_pitch_cv_resolved
    castor_smoothed := castor_step.2
    pollux_smoothed := pollux_smoothed
    chorus_lfo_mod := chorus_lfo_mod
    castor_unclamped := castor_unclamped
    pollux_unclamped := pollux_unclamped
    castor_pitch_cv := castor_pitch_cv
    pollux_pitch_cv := pollux_pitch_cv
    castor_duty := castor_duty
    pollux_duty := pollux_duty
    state :=
      { s with
        hard_sync := sync.1
        lfo := lfo
        castor := { s.castor with params := castor_params, smooth := castor_step.1 }
        pollux := { s.pollux with params := pollux_params, smooth := pollux_step.1 } }
    effects := sync.2 ++ commit }

/-! ## `main()` -/

/-- What the environment supplies to one pass of the `while (1)` of `main()`: the value
returned by `gem_adc_results_ready()` and the inputs of `loop()` should it run. -/
structure poll_input where
  adc_results_ready : Bool
  cycle : cycle_input
deriving DecidableEq, Repr

/-- One pass of the body of `while (1)` (lines 255-261). -/
def main_pass (F : Fix16) (G : Gem) (s : State) (p : poll_input) : State × List Effect :=
  let housekeeping := [Effect.gem_usb_task, Effect.gem_midi_task, Effect.gem_led_animation_step]
  if p.adc_results_ready then
    let r := loop F G s p.cycle
    (r.state, housekeeping ++ r.effects)
  else (s, housekeeping)

/-- Consecutive passes of the polling loop, with the calls of all passes in order. -/
def main_passes (F : Fix16) (G : Gem) (s : State) : List poll_input → State × List Effect
  | [] => (s, [])
  | p :: ps =>
    let r := main_pass F G s p
    let rest := main_passes F G r.1 ps
    (rest.1, r.2 ++ rest.2)

/-- Consecutive runs of `loop()`, with the calls of all runs in order. -/
def loops (F : Fix16) (G : Gem) (s : State) : List cycle_input → State × List Effect
  | [] => (s, [])
  | i :: is =>
    let r := loop F G s i
    let rest := loops F G r.state is
    (rest.1, r.effects ++ rest.2)

/-! ## Reading an effect trace -/

/-- The argument of the last `gem_pulseout_hard_sync` call of a trace, if there is one. -/
def last_hard_sync_call : List Effect → Option Bool
  | [] => none
  | e :: es =>
    match last_hard_sync_call es with
    | some b => some b
    | none =>
      match e with
      | Effect.gem_pulseout_hard_sync b => some b
      | _ => none

/-- The argument of the last `gem_led_animation_set_mode` call of a trace, if there is one. -/
def last_led_mode_call : List Effect → Option gem_led_mode
  | [] => none
  | e :: es =>
    match last_led_mode_call es with
    | some m => some m
    | none =>
      match e with
      | Effect.gem_led_animation_set_mode m => some m
      | _ => none

/-- Whether an effect is one of the two hard sync notifications. -/
def is_hard_sync_notification : Effect → Bool
  | Effect.gem_pulseout_hard_sync _ => true
  | Effect.gem_led_animation_set_mode _ => true
  | _ => false

/-- The LED mode that belongs to a value of the `hard_sync` flag (lines 206-212). -/
def led_mode_of (hard_sync : Bool) : gem_led_mode :=
  if hard_sync then gem_led_mode.GEM_LED_MODE_HARD_SYNC else gem_led_mode.GEM_LED_MODE_NORMAL

/-! ## Runs with a bounded LFO step -/

/-- Whether, along consecutive runs of `loop()` from `s`, the phase increment computed at
line 160 in each run lies between 0 and `F16(1.0)`. -/
def lfo_increments_bounded (F : Fix16) (G : Gem) (s : State) : List cycle_input → Bool
  | [] => true
  | i :: is =>
    decide (0 ≤ lfo_increment F s.settings.chorus_frequency (wrap_u32 (i.now - s.lfo.last_update)))
      && decide (lfo_increment F s.settings.chorus_frequency
                  (wrap_u32 (i.now - s.lfo.last_update)) ≤ F16 1)
      && lfo_increments_bounded F G (loop F G s i).state is

/-! ## Concrete instances -/

/-- A simple instance of the `gem.h` helpers, for evaluating the embedding at concrete
inputs: base offset 1.0 V and input range 6.0 V (the comment at lines 99-103), no knob
correction, no smoothing, the phase itself as the LFO shape and a lookup that stores the
pitch CV as voltage, period and DAC codes. -/
def plain_gem : Gem where
  GEM_CV_BASE_OFFSET := F16 1
  GEM_CV_INPUT_RANGE := F16 6
  gem_adc_correct_errors := fun v _ => v
  gem_smoothie_step := fun st v => (st, v)
  gem_triangle := fun phase => phase
  gem_voice_params_from_cv := fun cv _ => ⟨⟨cv, cv⟩, ⟨cv, cv⟩⟩

/-- Settings with knob bounds -1.0 V .. 1.0 V for Castor and -2.0 V .. 2.0 V for Pollux, a
follower threshold of 6 codes and a 1 Hz chorus of intensity 0.05 V. -/
def example_settings : gem_settings where
  adc_gain_corr := 2048
  adc_offset_corr := 0
  led_brightness := 127
  castor_knob_min := F16 (-1)
  castor_knob_max := F16 1
  pollux_knob_min := F16 (-2)
  pollux_knob_max := F16 2
  chorus_max_intensity := 3277
  chorus_frequency := F16 1
  knob_offset_corr := F16 0
  knob_gain_corr := F16 1
  smooth_initial_gain := 6554
  smooth_sensitivity := F16 30
  pollux_follower_threshold := 6

/-- The state after `init()` with `example_settings`. -/
def example_state : State := init (libfixmath false false) example_settings initial_state

/-- ADC contents with nothing patched into Pollux's CV input (raw code 4095) and all
knobs centred. -/
def example_adc : adc_results where
  GEM_IN_CV_A := 2048
  GEM_IN_CV_A_POT := 2048
  GEM_IN_CV_B := 4095
  GEM_IN_CV_B_POT := 2048
  GEM_IN_DUTY_A := 2048
  GEM_IN_DUTY_A_POT := 2048
  GEM_IN_DUTY_B := 2048
  GEM_IN_DUTY_B_POT := 2048
  GEM_IN_CHORUS_POT := 2048

/-! ## Reading the timer and DAC calls of a trace -/

/-- Whether interrupts are enabled after a trace that starts with the interrupt mask in the
state `enabled`. -/
def irq_enabled_after (enabled : Bool) : List Effect → Bool
  | [] => enabled
  | e :: es =>
    match e with
    | Effect.disable_irq => irq_enabled_after false es
    | Effect.enable_irq => irq_enabled_after true es
    | _ => irq_enabled_after enabled es

/-- Whether every `gem_pulseout_set_period` call of a trace is made while interrupts are
disabled, for a trace that starts with the interrupt mask in the state `enabled`. -/
def period_writes_masked (enabled : Bool) : List Effect → Bool
  | [] => true
  | e :: es =>
    match e with
    | Effect.disable_irq => period_writes_masked false es
    | Effect.enable_irq => period_writes_masked true es
    | Effect.gem_pulseout_set_period _ _ => !enabled && period_writes_masked enabled es
    | _ => period_writes_masked enabled es

/-- Whether an effect belongs to the timer commit: an interrupt mask change or a period
write. -/
def is_timer_commit_effect : Effect → Bool
  | Effect.disable_irq => true
  | Effect.enable_irq => true
  | Effect.gem_pulseout_set_period _ _ => true
  | _ => false

/-- The periods written to a timer channel, in order. -/
def period_writes (channel : Int) : List Effect → List Int
  | [] => []
  | e :: es =>
    match e with
    | Effect.gem_pulseout_set_period ch period =>
      if ch = channel then period :: period_writes channel es else period_writes channel es
    | _ => period_writes channel es

/-- The channel values of the `gem_mcp_4728_write_channels` calls of a trace, in order. -/
def dac_writes : List Effect →
    List (gem_mcp4728_channel × gem_mcp4728_channel × gem_mcp4728_channel × gem_mcp4728_channel)
  | [] => []
  | e :: es =>
    match e with
    | Effect.gem_mcp_4728_write_channels a b c d => (a, b, c, d) :: dac_writes es
    | _ => dac_writes es

/-! ## Facts about the fixed-point model -/

theorem wrap_i32_of_range (x : Int) (h1 : -2147483648 ≤ x) (h2 : x < 2147483648) :
    wrap_i32 x = x := by
  unfold wrap_i32; omega

theorem wrap_i32_range (x : Int) : -2147483648 ≤ wrap_i32 x ∧ wrap_i32 x < 2147483648 := by
  unfold wrap_i32; omega

theorem lfm_sub_of_le (no_overflow : Bool) (a b : Int) (hb : 0 ≤ b) (hab : b ≤ a)
    (ha : a < 2147483648) : lfm_sub no_overflow a b = a - b := by
  have hw : wrap_i32 (a - b) = a - b := wrap_i32_of_range _ (by omega) (by omega)
  have h1 : decide (0 ≤ a) = decide (0 ≤ b) := by
    simp only [decide_eq_decide]; omega
  simp [lfm_sub, hw, h1]

theorem lfm_from_int_of_range (n : Int) (h1 : -32768 ≤ n) (h2 : n ≤ 32767) :
    lfm_from_int n = n * 65536 := by
  unfold lfm_from_int; exact wrap_i32_of_range _ (by omega) (by omega)

theorem lfm_mul_whole (no_overflow no_rounding : Bool) (x n : Int)
    (h1 : -2147483648 ≤ x * n) (h2 : x * n < 2147483648) :
    lfm_mul no_overflow no_rounding x (n * 65536) = x * n := by
  have hp : x * (n * 65536) = (x * n) * 65536 := by ring
  unfold lfm_mul
  simp only [hp]
  generalize x * n = k at *
  have hov : (if k * 65536 < 0 then decide (k * 65536 / 140737488355328 ≠ -1)
                      else decide (k * 65536 / 140737488355328 ≠ 0)) = false := by
    split_ifs <;> simp <;> omega
  simp only [hov, Bool.and_false, Bool.false_eq_true, if_false]
  unfold wrap_i32
  split_ifs <;> omega

/-- The phase increment for a tick count that fits `fix16_from_int` and a product that fits
`fix16_t`: the per-tick step times the tick count. -/
theorem lfo_increment_eq (no_overflow no_rounding : Bool) (chorus_frequency d : Int)
    (h0 : 0 ≤ d) (h1 : d ≤ 32767)
    (h2 : -2147483648 ≤ lfm_div no_overflow no_rounding chorus_frequency (F16 1000) * d)
    (h3 : lfm_div no_overflow no_rounding chorus_frequency (F16 1000) * d < 2147483648) :
    lfo_increment (libfixmath no_overflow no_rounding) chorus_frequency d
      = lfm_div no_overflow no_rounding chorus_frequency (F16 1000) * d := by
  have hw : wrap_i32 d = d := wrap_i32_of_range _ (by omega) (by omega)
  simp only [lfo_increment, libfixmath, hw, lfm_from_int_of_range d (by omega) h1]
  exact lfm_mul_whole _ _ _ _ h2 h3

/-! ## Pitch CV limits (lines 174-184, 218-229) -/

/-- C1: every pitch CV, whatever its value, leaves the limiter of `loop()` as
`min(F16(7.0), max(F16(0.0), v))`, and this limited value, which lies between `F16(0.0)`
and `F16(7.0)`, is what `gem_voice_params_from_cv` receives for Castor and for Pollux. -/
theorem pitch_cv_clamped (F : Fix16) (G : Gem) (s : State) (i : cycle_input) (v : Int) :
    clamp_pitch_cv v = min (F16 7) (max (F16 0) v) ∧
    (loop F G s i).castor_pitch_cv = min (F16 7) (max (F16 0) (loop F G s i).castor_unclamped) ∧
    (loop F G s i).pollux_pitch_cv = min (F16 7) (max (F16 0) (loop F G s i).pollux_unclamped) ∧
    (F16 0 ≤ (loop F G s i).castor_pitch_cv ∧ (loop F G s i).castor_pitch_cv ≤ F16 7) ∧
    (F16 0 ≤ (loop F G s i).pollux_pitch_cv ∧ (loop F G s i).pollux_pitch_cv ≤ F16 7) ∧
    (loop F G s i).state.castor.params
      = G.gem_voice_params_from_cv (loop F G s i).castor_pitch_cv s.castor.params ∧
    (loop F G s i).state.pollux.params
      = G.gem_voice_params_from_cv (loop F G s i).pollux_pitch_cv s.pollux.params := by
  have key : ∀ w : Int, clamp_pitch_cv w = min (F16 7) (max (F16 0) w) ∧
      F16 0 ≤ clamp_pitch_cv w ∧ clamp_pitch_cv w ≤ F16 7 := by
    intro w
    simp only [clamp_pitch_cv, F16]
    split_ifs <;> omega
  refine ⟨(key v).1, (key _).1, (key _).1, (key _).2, (key _).2, rfl, rfl⟩

/-! ## Knob ranges set by `init()` (lines 58-66) -/

/-- C2: at settings whose Castor knob bounds are -1.0 V .. 1.0 V and whose Pollux knob
bounds are -2.0 V .. 2.0 V, `init()` stores 4.0 V as Castor's `knob_range` (Pollux's
bounds, line 60), not the 2.0 V between Castor's own bounds; Pollux's `knob_range` is 4.0 V. -/
theorem init_castor_knob_range_from_pollux_bounds :
    (init (libfixmath false false) example_settings initial_state).castor.knob_range = F16 4 ∧
    (libfixmath false false).fix16_sub example_settings.castor_knob_max example_settings.castor_knob_min
      = F16 2 ∧
    (init (libfixmath false false) example_settings initial_state).pollux.knob_range = F16 4 ∧
    (libfixmath false false).fix16_sub example_settings.pollux_knob_max example_settings.pollux_knob_min
      = F16 4 := by
  decide

/-! ## Leader and follower pitch (lines 104-147) -/

/-- C3: when Pollux's inverted CV code is at most the follower threshold, Pollux's base
pitch voltage is Castor's resolved pitch CV of the same cycle (base voltage plus fine-tune,
the value that then enters Castor's smoothing), Pollux's pitch CV before smoothing is
`fix16_add` of that and Pollux's fine-tune voltage, and both are the same from every state
with the same settings, knob errors and knob ranges, whatever the earlier cycles left in
the other variables. -/
theorem follow_mode (F : Fix16) (G : Gem) (s : State) (i : cycle_input)
    (h : inverted_code i.adc.GEM_IN_CV_B ≤ s.settings.pollux_follower_threshold) :
    (loop F G s i).pollux_pitch_cv_code = inverted_code i.adc.GEM_IN_CV_B ∧
    (loop F G s i).castor_pitch_cv_resolved
      = F.fix16_add (loop F G s i).castor_base (loop F G s i).castor_pitch_knob ∧
    (loop F G s i).castor_smoothed
      = (G.gem_smoothie_step s.castor.smooth (loop F G s i).castor_pitch_cv_resolved).2 ∧
    (loop F G s i).pollux_base = (loop F G s i).castor_pitch_cv_resolved ∧
    (loop F G s i).pollux_pitch_cv_resolved
      = F.fix16_add (loop F G s i).castor_pitch_cv_resolved (loop F G s i).pollux_pitch_knob ∧
    (loop F G s i).pollux_smoothed
      = (G.gem_smoothie_step s.pollux.smooth (loop F G s i).pollux_pitch_cv_resolved).2 ∧
    ∀ s' : State, s'.settings = s.settings → s'.knob_errors = s.knob_errors →
      s'.castor.knob_range = s.castor.knob_range → s'.pollux.knob_range = s.pollux.knob_range →
      (loop F G s' i).pollux_base = (loop F G s i).pollux_base ∧
      (loop F G s' i).pollux_pitch_cv_resolved = (loop F G s i).pollux_pitch_cv_resolved := by
  have hn : ¬ inverted_code i.adc.GEM_IN_CV_B > s.settings.pollux_follower_threshold := not_lt.mpr h
  refine ⟨rfl, rfl, rfl, ?_, ?_, rfl, ?_⟩
  · simp only [loop, if_neg hn]
  · simp only [loop, if_neg hn]
  · intro s' h1 h2 h3 h4
    simp only [loop, h1, h2, h3, h4, and_self]

/-- C3, at a concrete cycle: raw follower CV code 4095 (inverted code 0, threshold 6). -/
theorem follow_mode_witness :
    inverted_code example_adc.GEM_IN_CV_B ≤ example_state.settings.pollux_follower_threshold ∧
    (loop (libfixmath false false) plain_gem example_state ⟨example_adc, 5, false⟩).pollux_base
      = (loop (libfixmath false false) plain_gem example_state
          ⟨example_adc, 5, false⟩).castor_pitch_cv_resolved :=
  ⟨by decide,
   (follow_mode (libfixmath false false) plain_gem example_state ⟨example_adc, 5, false⟩
      (by decide)).2.2.2.1⟩

/-- C4: when Pollux's inverted CV code exceeds the follower threshold, Pollux's base pitch
voltage is `GEM_CV_BASE_OFFSET + GEM_CV_INPUT_RANGE * (code / 4095)` of its own inverted
code, and its base voltage and its pitch CV before smoothing do not change when Castor's
CV code and Castor's knob code are replaced by any others. -/
theorem override_mode (F : Fix16) (G : Gem) (s : State) (i : cycle_input)
    (h : inverted_code i.adc.GEM_IN_CV_B > s.settings.pollux_follower_threshold) :
    (loop F G s i).pollux_pitch_cv_code = inverted_code i.adc.GEM_IN_CV_B ∧
    (loop F G s i).pollux_base
      = F.fix16_add G.GEM_CV_BASE_OFFSET
          (F.fix16_mul G.GEM_CV_INPUT_RANGE
            (F.fix16_div (F.fix16_from_int (inverted_code i.adc.GEM_IN_CV_B)) (F16 4095))) ∧
    (loop F G s i).pollux_pitch_cv_resolved
      = F.fix16_add (loop F G s i).pollux_base (loop F G s i).pollux_pitch_knob ∧
    ∀ cv_a pot_a : Int,
      (loop F G s { i with adc := { i.adc with GEM_IN_CV_A := cv_a, GEM_IN_CV_A_POT := pot_a } }).pollux_base
        = (loop F G s i).pollux_base ∧
      (loop F G s { i with adc := { i.adc with GEM_IN_CV_A := cv_a, GEM_IN_CV_A_POT := pot_a } }).pollux_pitch_cv_resolved
        = (loop F G s i).pollux_pitch_cv_resolved := by
  refine ⟨rfl, ?_, rfl, ?_⟩
  · simp only [loop, if_pos h, base_pitch_voltage]
  · intro cv_a pot_a
    simp only [loop, if_pos h, and_self]

/-- C4, at a concrete cycle: raw follower CV code 1000 (inverted code 3095, threshold 6). -/
theorem override_mode_witness :
    inverted_code 1000 > example_state.settings.pollux_follower_threshold ∧
    ∀ cv_a pot_a : Int,
      (loop (libfixmath false false) plain_gem example_state
        { (⟨{ example_adc with GEM_IN_CV_B := 1000 }, 5, false⟩ : cycle_input) with
          adc := { example_adc with GEM_IN_CV_B := 1000, GEM_IN_CV_A := cv_a,
                                    GEM_IN_CV_A_POT := pot_a } }).pollux_pitch_cv_resolved
        = (loop (libfixmath false false) plain_gem example_state
            ⟨{ example_adc with GEM_IN_CV_B := 1000 }, 5, false⟩).pollux_pitch_cv_resolved :=
  ⟨by decide,
   fun cv_a pot_a =>
    ((override_mode (libfixmath false false) plain_gem example_state
      ⟨{ example_adc with GEM_IN_CV_B := 1000 }, 5, false⟩ (by decide)).2.2.2 cv_a pot_a).2⟩

/-! ## Chorus LFO (lines 156-166) -/

/-- C5 as stated fails: from phase 0, a 1 Hz chorus and 3000 elapsed ticks leave a phase of
at least `F16(1.0)` (one subtraction of 1.0 is not enough); a raw frequency of 16000 and
4096 elapsed ticks leave exactly `F16(1.0)` (the comparison at line 162 is strict); and a
1000 Hz chorus with 32768 elapsed ticks leaves a negative phase (`fix16_from_int`
overflows). -/
theorem lfo_phase_range_counterexample :
    (F16 0 ≤ example_state.lfo.phase ∧ example_state.lfo.phase < F16 1 ∧
      0 ≤ example_state.settings.chorus_frequency ∧
      ¬ (loop (libfixmath false false) plain_gem example_state
          ⟨example_adc, 3000, false⟩).state.lfo.phase < F16 1) ∧
    (lfo_update (libfixmath false false) 16000 ⟨F16 0, 0⟩ 4096).phase = F16 1 ∧
    (lfo_update (libfixmath false false) (F16 1000) ⟨F16 0, 0⟩ 32768).phase < F16 0 := by
  decide

/-- The failures of C5 do not depend on how the fixed-point library is built. -/
theorem lfo_phase_range_fails_in_every_build :
    ∀ no_overflow no_rounding : Bool,
      ¬ (loop (libfixmath no_overflow no_rounding) plain_gem example_state
          ⟨example_adc, 3000, false⟩).state.lfo.phase < F16 1 ∧
      (lfo_update (libfixmath no_overflow no_rounding) 16000 ⟨F16 0, 0⟩ 4096).phase = F16 1 ∧
      (lfo_update (libfixmath no_overflow no_rounding) (F16 1000) ⟨F16 0, 0⟩ 32768).phase < F16 0 := by
  decide

/-- One LFO update from a phase in `[F16(0), F16(1.0)]` with an increment in
`[0, F16(1.0)]` stores a phase in `[F16(0), F16(1.0)]`, below `F16(1.0)` unless phase plus
increment is `F16(1.0)` or `F16(2.0)`. -/
theorem lfo_update_range (no_overflow no_rounding : Bool) (chorus_frequency : Int)
    (lfo : lfo_state) (now : Int)
    (h0 : F16 0 ≤ lfo.phase) (h1 : lfo.phase ≤ F16 1)
    (hlo : 0 ≤ lfo_increment (libfixmath no_overflow no_rounding) chorus_frequency
              (wrap_u32 (now - lfo.last_update)))
    (hhi : lfo_increment (libfixmath no_overflow no_rounding) chorus_frequency
              (wrap_u32 (now - lfo.last_update)) ≤ F16 1) :
    F16 0 ≤ (lfo_update (libfixmath no_overflow no_rounding) chorus_frequency lfo now).phase ∧
    (lfo_update (libfixmath no_overflow no_rounding) chorus_frequency lfo now).phase ≤ F16 1 ∧
    (lfo.phase < F16 1 →
      lfo.phase + lfo_increment (libfixmath no_overflow no_rounding) chorus_frequency
        (wrap_u32 (now - lfo.last_update)) ≠ F16 1 →
      lfo.phase + lfo_increment (libfixmath no_overflow no_rounding) chorus_frequency
        (wrap_u32 (now - lfo.last_update)) ≠ F16 2 →
      (lfo_update (libfixmath no_overflow no_rounding) chorus_frequency lfo now).phase < F16 1) := by
  unfold lfo_update
  simp only [F16] at h0 h1 hhi ⊢
  generalize lfo_increment (libfixmath no_overflow no_rounding) chorus_frequency
    (wrap_u32 (now - lfo.last_update)) = inc at hlo hhi ⊢
  by_cases hd : wrap_u32 (now - lfo.last_update) > 0
  · have hw : wrap_i32 (lfo.phase + inc) = lfo.phase + inc :=
      wrap_i32_of_range _ (by omega) (by omega)
    simp only [if_pos hd, hw]
    by_cases hp : lfo.phase + inc > 1 * 65536
    · have hs : (libfixmath no_overflow no_rounding).fix16_sub (lfo.phase + inc) (1 * 65536)
          = lfo.phase + inc - 1 * 65536 :=
        lfm_sub_of_le _ _ _ (by omega) (by omega) (by omega)
      simp only [if_pos hp, hs]
      exact ⟨by omega, by omega, by omega⟩
    · simp only [if_neg hp]
      exact ⟨by omega, by omega, by omega⟩
  · simp only [if_neg hd]
    exact ⟨by omega, by omega, by omega⟩

/-- Over consecutive runs of `loop()` whose increments all lie in `[0, F16(1.0)]`, a phase
that starts in `[F16(0), F16(1.0)]` stays there. -/
theorem loops_lfo_phase_range (no_overflow no_rounding : Bool) (G : Gem)
    (is : List cycle_input) :
    ∀ s : State, F16 0 ≤ s.lfo.phase → s.lfo.phase ≤ F16 1 →
      lfo_increments_bounded (libfixmath no_overflow no_rounding) G s is = true →
      F16 0 ≤ (loops (libfixmath no_overflow no_rounding) G s is).1.lfo.phase ∧
      (loops (libfixmath no_overflow no_rounding) G s is).1.lfo.phase ≤ F16 1 := by
  induction is with
  | nil => intro s h0 h1 _; exact ⟨h0, h1⟩
  | cons i is ih =>
    intro s h0 h1 hb
    simp only [lfo_increments_bounded, Bool.and_eq_true, decide_eq_true_eq] at hb
    have hstep := lfo_update_range no_overflow no_rounding s.settings.chorus_frequency s.lfo
      i.now h0 h1 hb.1.1 hb.1.2
    have hl : (loop (libfixmath no_overflow no_rounding) G s i).state.lfo
        = lfo_update (libfixmath no_overflow no_rounding) s.settings.chorus_frequency s.lfo
            i.now := rfl
    have hnext := ih (loop (libfixmath no_overflow no_rounding) G s i).state
      (by rw [hl]; exact hstep.1) (by rw [hl]; exact hstep.2.1) hb.2
    simpa only [loops] using hnext

/-- C5, amended: from a phase in the closed range `[F16(0), F16(1.0)]`, when the increment
computed at line 160 for this cycle lies between 0 and `F16(1.0)` (at most one LFO period
has elapsed, nothing overflows), the phase stored by `loop()` is again in
`[F16(0), F16(1.0)]`; so the closed range is preserved by every such cycle and by every
sequence of such cycles. From a phase below `F16(1.0)` the stored phase is strictly below
`F16(1.0)` unless phase plus increment is exactly `F16(1.0)` or `F16(2.0)`. -/
theorem lfo_phase_range (no_overflow no_rounding : Bool) (G : Gem) (s : State) (i : cycle_input)
    (is : List cycle_input)
    (h0 : F16 0 ≤ s.lfo.phase) (h1 : s.lfo.phase ≤ F16 1)
    (hlo : 0 ≤ lfo_increment (libfixmath no_overflow no_rounding) s.settings.chorus_frequency
              (wrap_u32 (i.now - s.lfo.last_update)))
    (hhi : lfo_increment (libfixmath no_overflow no_rounding) s.settings.chorus_frequency
              (wrap_u32 (i.now - s.lfo.last_update)) ≤ F16 1)
    (hruns : lfo_increments_bounded (libfixmath no_overflow no_rounding) G s is = true) :
    (F16 0 ≤ (loop (libfixmath no_overflow no_rounding) G s i).state.lfo.phase ∧
      (loop (libfixmath no_overflow no_rounding) G s i).state.lfo.phase ≤ F16 1) ∧
    (s.lfo.phase < F16 1 →
      s.lfo.phase + lfo_increment (libfixmath no_overflow no_rounding) s.settings.chorus_frequency
        (wrap_u32 (i.now - s.lfo.last_update)) ≠ F16 1 →
      s.lfo.phase + lfo_increment (libfixmath no_overflow no_rounding) s.settings.chorus_frequency
        (wrap_u32 (i.now - s.lfo.last_update)) ≠ F16 2 →
      (loop (libfixmath no_overflow no_rounding) G s i).state.lfo.phase < F16 1) ∧
    (F16 0 ≤ (loops (libfixmath no_overflow no_rounding) G s is).1.lfo.phase ∧
      (loops (libfixmath no_overflow no_rounding) G s is).1.lfo.phase ≤ F16 1) := by
  have hl : (loop (libfixmath no_overflow no_rounding) G s i).state.lfo
      = lfo_update (libfixmath no_overflow no_rounding) s.settings.chorus_frequency s.lfo i.now := rfl
  have hstep := lfo_update_range no_overflow no_rounding s.settings.chorus_frequency s.lfo
    i.now h0 h1 hlo hhi
  rw [hl]
  exact ⟨⟨hstep.1, hstep.2.1⟩, hstep.2.2,
    loops_lfo_phase_range no_overflow no_rounding G is s h0 h1 hruns⟩

/-- C5, amended, at concrete cycles: a start at phase exactly 1.0 with a 1 Hz chorus and
600 elapsed ticks, and three consecutive runs from phase 65520 at raw frequency 16000 of
which the first, one tick long, stores exactly `F16(1.0)`. -/
theorem lfo_phase_range_witness :
    (loop (libfixmath false false) plain_gem { example_state with lfo := ⟨65536, 100⟩ }
        ⟨example_adc, 700, false⟩).state.lfo.phase = 39600 ∧
    (loops (libfixmath false false) plain_gem
        { example_state with
          lfo := ⟨65520, 0⟩, settings := { example_settings with chorus_frequency := 16000 } }
        [⟨example_adc, 1, false⟩]).1.lfo.phase = F16 1 ∧
    (F16 0 ≤ (loop (libfixmath false false) plain_gem { example_state with lfo := ⟨65536, 100⟩ }
        ⟨example_adc, 700, false⟩).state.lfo.phase ∧
      (loop (libfixmath false false) plain_gem { example_state with lfo := ⟨65536, 100⟩ }
        ⟨example_adc, 700, false⟩).state.lfo.phase ≤ F16 1) ∧
    (F16 0 ≤ (loops (libfixmath false false) plain_gem
        { example_state with
          lfo := ⟨65520, 0⟩, settings := { example_settings with chorus_frequency := 16000 } }
        [⟨example_adc, 1, false⟩, ⟨example_adc, 1, false⟩, ⟨example_adc, 2001, true⟩]).1.lfo.phase ∧
      (loops (libfixmath false false) plain_gem
        { example_state with
          lfo := ⟨65520, 0⟩, settings := { example_settings with chorus_frequency := 16000 } }
        [⟨example_adc, 1, false⟩, ⟨example_adc, 1, false⟩, ⟨example_adc, 2001, true⟩]).1.lfo.phase
        ≤ F16 1) :=
  ⟨by decide, by decide,
   (lfo_phase_range false false plain_gem { example_state with lfo := ⟨65536, 100⟩ }
      ⟨example_adc, 700, false⟩ [] (by decide) (by decide) (by decide) (by decide) rfl).1,
   (lfo_phase_range false false plain_gem
      { example_state with
        lfo := ⟨65520, 0⟩, settings := { example_settings with chorus_frequency := 16000 } }
      ⟨example_adc, 1, false⟩
      [⟨example_adc, 1, false⟩, ⟨example_adc, 1, false⟩, ⟨example_adc, 2001, true⟩]
      (by decide) (by decide) (by decide) (by decide) (by decide)).2.2⟩

/-- C9: for a chorus frequency and positive tick counts `d` and `2d`, where `2d` fits
`fix16_from_int` (`2d <= 32767`) and the product for `2d` fits `fix16_t`, the phase
increment `fix16_mul(fix16_div(chorus_frequency, F16(1000.0)), fix16_from_int(2d))` is
exactly twice the increment for `d`, in every build of the fixed-point library. -/
theorem lfo_increment_doubles (no_overflow no_rounding : Bool) (chorus_frequency d : Int)
    (hd : 0 < d) (h2d : 2 * d ≤ 32767)
    (hlo : -2147483648 ≤ lfm_div no_overflow no_rounding chorus_frequency (F16 1000) * (2 * d))
    (hhi : lfm_div no_overflow no_rounding chorus_frequency (F16 1000) * (2 * d) < 2147483648) :
    lfo_increment (libfixmath no_overflow no_rounding) chorus_frequency (2 * d)
      = 2 * lfo_increment (libfixmath no_overflow no_rounding) chorus_frequency d ∧
    lfo_increment (libfixmath no_overflow no_rounding) chorus_frequency (2 * d)
      = (libfixmath no_overflow no_rounding).fix16_mul
          ((libfixmath no_overflow no_rounding).fix16_div chorus_frequency (F16 1000))
          ((libfixmath no_overflow no_rounding).fix16_from_int (2 * d)) := by
  have hx : lfm_div no_overflow no_rounding chorus_frequency (F16 1000) * (2 * d)
      = 2 * (lfm_div no_overflow no_rounding chorus_frequency (F16 1000) * d) := by ring
  rw [hx] at hlo hhi
  have e2 := lfo_increment_eq no_overflow no_rounding chorus_frequency (2 * d) (by omega) h2d
    (by rw [hx]; exact hlo) (by rw [hx]; exact hhi)
  have e1 := lfo_increment_eq no_overflow no_rounding chorus_frequency d (by omega) (by omega)
    (by omega) (by omega)
  refine ⟨?_, ?_⟩
  · rw [e2, e1, hx]
  · have hw : wrap_i32 (2 * d) = 2 * d := wrap_i32_of_range _ (by omega) (by omega)
    simp only [lfo_increment, hw]

/-- C9, at a concrete input: a 1 Hz chorus, 5 and 10 elapsed ticks. -/
theorem lfo_increment_doubles_witness :
    lfo_increment (libfixmath false false) (F16 1) 5 = 330 ∧
    lfo_increment (libfixmath false false) (F16 1) (2 * 5)
      = 2 * lfo_increment (libfixmath false false) (F16 1) 5 :=
  ⟨by decide,
   (lfo_increment_doubles false false (F16 1) 5 (by decide) (by decide) (by decide)
      (by decide)).1⟩

/-- C10: with `elapsed = now - lfo.last_update` in `uint32_t`, a cycle with `elapsed = 0`
leaves the LFO state as it was; a cycle with `elapsed > 0` stores `now` as `last_update`
and, for `p = phase + fix16_mul(fix16_div(chorus_frequency, F16(1000.0)),
fix16_from_int(elapsed))`, stores `p` when `p <= F16(1.0)` and `fix16_sub(p, F16(1.0))`
otherwise, which in the fixed-point model is `p - F16(1.0)`. -/
theorem lfo_advance (F : Fix16) (G : Gem) (s : State) (i : cycle_input)
    (no_overflow no_rounding : Bool) :
    (wrap_u32 (i.now - s.lfo.last_update) = 0 → (loop F G s i).state.lfo = s.lfo) ∧
    (wrap_u32 (i.now - s.lfo.last_update) > 0 →
      (loop F G s i).state.lfo.last_update = i.now ∧
      (wrap_i32 (s.lfo.phase + F.fix16_mul (F.fix16_div s.settings.chorus_frequency (F16 1000))
          (F.fix16_from_int (wrap_i32 (wrap_u32 (i.now - s.lfo.last_update))))) ≤ F16 1 →
        (loop F G s i).state.lfo.phase
          = wrap_i32 (s.lfo.phase + F.fix16_mul (F.fix16_div s.settings.chorus_frequency (F16 1000))
              (F.fix16_from_int (wrap_i32 (wrap_u32 (i.now - s.lfo.last_update)))))) ∧
      (wrap_i32 (s.lfo.phase + F.fix16_mul (F.fix16_div s.settings.chorus_frequency (F16 1000))
          (F.fix16_from_int (wrap_i32 (wrap_u32 (i.now - s.lfo.last_update))))) > F16 1 →
        (loop F G s i).state.lfo.phase
          = F.fix16_sub (wrap_i32 (s.lfo.phase
              + F.fix16_mul (F.fix16_div s.settings.chorus_frequency (F16 1000))
                  (F.fix16_from_int (wrap_i32 (wrap_u32 (i.now - s.lfo.last_update))))))
              (F16 1))) ∧
    (wrap_u32 (i.now - s.lfo.last_update) > 0 →
      wrap_i32 (s.lfo.phase + lfo_increment (libfixmath no_overflow no_rounding)
          s.settings.chorus_frequency (wrap_u32 (i.now - s.lfo.last_update))) > F16 1 →
      (loop (libfixmath no_overflow no_rounding) G s i).state.lfo.phase
        = wrap_i32 (s.lfo.phase + lfo_increment (libfixmath no_overflow no_rounding)
            s.settings.chorus_frequency (wrap_u32 (i.now - s.lfo.last_update))) - F16 1) := by
  have hl : ∀ F' : Fix16, (loop F' G s i).state.lfo
      = lfo_update F' s.settings.chorus_frequency s.lfo i.now := fun _ => rfl
  refine ⟨?_, ?_, ?_⟩
  · intro h
    rw [hl]
    simp [lfo_update, h]
  · intro h
    rw [hl]
    refine ⟨?_, ?_, ?_⟩
    · simp [lfo_update, h]
    · intro hp
      have hn : ¬ wrap_i32 (s.lfo.phase + F.fix16_mul (F.fix16_div s.settings.chorus_frequency (F16 1000))
          (F.fix16_from_int (wrap_i32 (wrap_u32 (i.now - s.lfo.last_update))))) > F16 1 := not_lt.mpr hp
      simp only [lfo_update, lfo_increment, if_pos h, if_neg hn]
    · intro hp
      simp only [lfo_update, lfo_increment, if_pos h, if_pos hp]
  · intro h hp
    rw [hl]
    simp only [lfo_update, if_pos h, if_pos hp]
    have hr := wrap_i32_range (s.lfo.phase + lfo_increment (libfixmath no_overflow no_rounding)
          s.settings.chorus_frequency (wrap_u32 (i.now - s.lfo.last_update)))
    simp only [F16] at hp ⊢
    exact lfm_sub_of_le _ _ _ (by omega) (by omega) hr.2

/-! ## Facts about traces -/

theorem loop_hard_sync (F : Fix16) (G : Gem) (s : State) (i : cycle_input) :
    (loop F G s i).state.hard_sync = (hard_sync_check s.hard_sync i.tapped).1 := rfl

theorem loop_effects (F : Fix16) (G : Gem) (s : State) (i : cycle_input) :
    (loop F G s i).effects.filter is_hard_sync_notification
      = (hard_sync_check s.hard_sync i.tapped).2.filter is_hard_sync_notification := by
  simp [loop, is_hard_sync_notification]

theorem last_hard_sync_call_append (a b : List Effect) :
    last_hard_sync_call (a ++ b)
      = match last_hard_sync_call b with
        | some v => some v
        | none => last_hard_sync_call a := by
  induction a with
  | nil => cases h : last_hard_sync_call b <;> simp [last_hard_sync_call, h]
  | cons e es ih =>
    cases hb : last_hard_sync_call b with
    | some v =>
      rw [hb] at ih
      simp [last_hard_sync_call, ih]
    | none =>
      rw [hb] at ih
      simp [last_hard_sync_call, ih]

theorem last_led_mode_call_append (a b : List Effect) :
    last_led_mode_call (a ++ b)
      = match last_led_mode_call b with
        | some v => some v
        | none => last_led_mode_call a := by
  induction a with
  | nil => cases h : last_led_mode_call b <;> simp [last_led_mode_call, h]
  | cons e es ih =>
    cases hb : last_led_mode_call b with
    | some v =>
      rw [hb] at ih
      simp [last_led_mode_call, ih]
    | none =>
      rw [hb] at ih
      simp [last_led_mode_call, ih]

/-- After one run of `loop()`, the last hard sync notification of the run, or else the flag
before the run, is the flag after the run; likewise for the LED mode. -/
theorem loop_last_notification (F : Fix16) (G : Gem) (s : State) (i : cycle_input)
    (m : gem_led_mode) (hm : m = led_mode_of s.hard_sync) :
    (last_hard_sync_call (loop F G s i).effects).getD s.hard_sync = (loop F G s i).state.hard_sync ∧
    (last_led_mode_call (loop F G s i).effects).getD m
      = led_mode_of (loop F G s i).state.hard_sync := by
  subst hm
  cases ht : i.tapped <;> cases hs : s.hard_sync <;>
    simp [loop, hard_sync_check, ht, hs, last_hard_sync_call, last_led_mode_call, led_mode_of]

/-- Over consecutive runs of `loop()`, the last hard sync notification, or else the flag at
the start, is the flag at the end; likewise for the LED mode. -/
theorem loops_last_notification (F : Fix16) (G : Gem) (is : List cycle_input) :
    ∀ s : State,
      (last_hard_sync_call (loops F G s is).2).getD s.hard_sync = (loops F G s is).1.hard_sync ∧
      (last_led_mode_call (loops F G s is).2).getD (led_mode_of s.hard_sync)
        = led_mode_of (loops F G s is).1.hard_sync := by
  induction is with
  | nil => intro s; simp [loops, last_hard_sync_call, last_led_mode_call]
  | cons i is ih =>
    intro s
    have h1 := loop_last_notification F G s i (led_mode_of s.hard_sync) rfl
    have h2 := ih (loop F G s i).state
    simp only [loops, last_hard_sync_call_append, last_led_mode_call_append]
    constructor
    · cases hb : last_hard_sync_call (loops F G (loop F G s i).state is).2 with
      | some v => simpa [hb] using h2.1
      | none =>
        rw [hb] at h2
        simp only [Option.getD_none] at h2
        rw [← h2.1]
        exact h1.1
    · cases hb : last_led_mode_call (loops F G (loop F G s i).state is).2 with
      | some v => simpa [hb] using h2.2
      | none =>
        rw [hb] at h2
        simp only [Option.getD_none] at h2
        rw [← h2.2]
        exact h1.2

/-- Over consecutive runs of `loop()` without a tap the flag stays and no hard sync
notification is made. -/
theorem loops_without_tap (F : Fix16) (G : Gem) (is : List cycle_input) :
    ∀ s : State, (∀ i ∈ is, i.tapped = false) →
      (loops F G s is).1.hard_sync = s.hard_sync ∧
      (loops F G s is).2.filter is_hard_sync_notification = [] := by
  induction is with
  | nil => intro s _; simp [loops]
  | cons i is ih =>
    intro s h
    have ht : i.tapped = false := h i (List.mem_cons_self _ _)
    have h2 := ih (loop F G s i).state (fun j hj => h j (List.mem_cons_of_mem _ hj))
    have h3 : (loop F G s i).state.hard_sync = s.hard_sync := by
      simp [loop_hard_sync, hard_sync_check, ht]
    have h4 : (loop F G s i).effects.filter is_hard_sync_notification = [] := by
      rw [loop_effects]
      simp [hard_sync_check, ht, is_hard_sync_notification]
    simp only [loops, List.filter_append, h4, h2.2, List.append_nil]
    exact ⟨h2.1.trans h3, trivial⟩

/-! ## Duty codes (lines 186-197) -/

/-- C6: for raw duty knob and duty CV codes in `[0, 4095]`, each oscillator's duty code is
`min(4095, (4095 - knob code) + (4095 - CV code))`, the sum fits the 16-bit accumulator
(it is below 65536), the duty code never exceeds 4095, and it is 4095 when both raw
codes are 0. -/
theorem duty_saturation (F : Fix16) (G : Gem) (s : State) (i : cycle_input)
    (ha1 : 0 ≤ i.adc.GEM_IN_DUTY_A_POT ∧ i.adc.GEM_IN_DUTY_A_POT ≤ 4095)
    (ha2 : 0 ≤ i.adc.GEM_IN_DUTY_A ∧ i.adc.GEM_IN_DUTY_A ≤ 4095)
    (hb1 : 0 ≤ i.adc.GEM_IN_DUTY_B_POT ∧ i.adc.GEM_IN_DUTY_B_POT ≤ 4095)
    (hb2 : 0 ≤ i.adc.GEM_IN_DUTY_B ∧ i.adc.GEM_IN_DUTY_B ≤ 4095) :
    ((loop F G s i).castor_duty
        = min 4095 ((4095 - i.adc.GEM_IN_DUTY_A_POT) + (4095 - i.adc.GEM_IN_DUTY_A)) ∧
      (4095 - i.adc.GEM_IN_DUTY_A_POT) + (4095 - i.adc.GEM_IN_DUTY_A) < 65536 ∧
      (loop F G s i).castor_duty ≤ 4095 ∧
      (i.adc.GEM_IN_DUTY_A_POT = 0 → i.adc.GEM_IN_DUTY_A = 0 → (loop F G s i).castor_duty = 4095)) ∧
    ((loop F G s i).pollux_duty
        = min 4095 ((4095 - i.adc.GEM_IN_DUTY_B_POT) + (4095 - i.adc.GEM_IN_DUTY_B)) ∧
      (4095 - i.adc.GEM_IN_DUTY_B_POT) + (4095 - i.adc.GEM_IN_DUTY_B) < 65536 ∧
      (loop F G s i).pollux_duty ≤ 4095 ∧
      (i.adc.GEM_IN_DUTY_B_POT = 0 → i.adc.GEM_IN_DUTY_B = 0 → (loop F G s i).pollux_duty = 4095)) := by
  have key : ∀ pot cv : Int, 0 ≤ pot → pot ≤ 4095 → 0 ≤ cv → cv ≤ 4095 →
      duty_code pot cv = min 4095 ((4095 - pot) + (4095 - cv)) := by
    intro pot cv h1 h2 h3 h4
    simp only [duty_code, wrap_u16, wrap_u32]
    split_ifs <;> omega
  have hc : (loop F G s i).castor_duty = duty_code i.adc.GEM_IN_DUTY_A_POT i.adc.GEM_IN_DUTY_A := rfl
  have hp : (loop F G s i).pollux_duty = duty_code i.adc.GEM_IN_DUTY_B_POT i.adc.GEM_IN_DUTY_B := rfl
  rw [hc, hp, key _ _ ha1.1 ha1.2 ha2.1 ha2.2, key _ _ hb1.1 hb1.2 hb2.1 hb2.2]
  refine ⟨⟨rfl, ?_, ?_, ?_⟩, ⟨rfl, ?_, ?_, ?_⟩⟩ <;> omega

/-- C6, at a concrete cycle: all four raw duty codes 0. -/
theorem duty_saturation_witness :
    (loop (libfixmath false false) plain_gem example_state
      ⟨{ example_adc with GEM_IN_DUTY_A := 0, GEM_IN_DUTY_A_POT := 0, GEM_IN_DUTY_B := 0,
                           GEM_IN_DUTY_B_POT := 0 }, 5, false⟩).castor_duty = 4095 ∧
    (loop (libfixmath false false) plain_gem example_state
      ⟨{ example_adc with GEM_IN_DUTY_A := 0, GEM_IN_DUTY_A_POT := 0, GEM_IN_DUTY_B := 0,
                           GEM_IN_DUTY_B_POT := 0 }, 5, false⟩).pollux_duty ≤ 4095 :=
  ⟨(duty_saturation (libfixmath false false) plain_gem example_state
      ⟨{ example_adc with GEM_IN_DUTY_A := 0, GEM_IN_DUTY_A_POT := 0, GEM_IN_DUTY_B := 0,
                           GEM_IN_DUTY_B_POT := 0 }, 5, false⟩
      (by decide) (by decide) (by decide) (by decide)).1.2.2.2 rfl rfl,
   (duty_saturation (libfixmath false false) plain_gem example_state
      ⟨{ example_adc with GEM_IN_DUTY_A := 0, GEM_IN_DUTY_A_POT := 0, GEM_IN_DUTY_B := 0,
                           GEM_IN_DUTY_B_POT := 0 }, 5, false⟩
      (by decide) (by decide) (by decide) (by decide)).2.2.2.1⟩

/-! ## Hard sync (lines 199-213) -/

/-- C7: a run of `loop()` in which `gem_button_tapped` reports false leaves `hard_sync` as
it was and calls neither `gem_pulseout_hard_sync` nor `gem_led_animation_set_mode`; so do
any number of consecutive runs without a tap. -/
theorem hard_sync_idempotent (F : Fix16) (G : Gem) (s : State) (i : cycle_input)
    (is : List cycle_input) (h : i.tapped = false) (hs : ∀ j ∈ is, j.tapped = false) :
    ((loop F G s i).state.hard_sync = s.hard_sync ∧
      (∀ b, Effect.gem_pulseout_hard_sync b ∉ (loop F G s i).effects) ∧
      (∀ m, Effect.gem_led_animation_set_mode m ∉ (loop F G s i).effects)) ∧
    ((loops F G s is).1.hard_sync = s.hard_sync ∧
      (∀ b, Effect.gem_pulseout_hard_sync b ∉ (loops F G s is).2) ∧
      (∀ m, Effect.gem_led_animation_set_mode m ∉ (loops F G s is).2)) := by
  have absent : ∀ l : List Effect, l.filter is_hard_sync_notification = [] →
      (∀ b, Effect.gem_pulseout_hard_sync b ∉ l) ∧
      (∀ m, Effect.gem_led_animation_set_mode m ∉ l) := by
    intro l hl
    constructor
    · intro b hb
      have : Effect.gem_pulseout_hard_sync b ∈ l.filter is_hard_sync_notification :=
        List.mem_filter.mpr ⟨hb, rfl⟩
      rw [hl] at this
      exact List.not_mem_nil _ this
    · intro m hm
      have : Effect.gem_led_animation_set_mode m ∈ l.filter is_hard_sync_notification :=
        List.mem_filter.mpr ⟨hm, rfl⟩
      rw [hl] at this
      exact List.not_mem_nil _ this
  have one := loops_without_tap F G [i] s (by simpa using h)
  have many := loops_without_tap F G is s hs
  simp only [loops, List.append_nil] at one
  exact ⟨⟨one.1, absent _ one.2⟩, ⟨many.1, absent _ many.2⟩⟩

/-- C7, at concrete cycles: one run and then three more, none with a tap, after the flag
was set. -/
theorem hard_sync_idempotent_witness :
    (loop (libfixmath false false) plain_gem { example_state with hard_sync := true }
        ⟨example_adc, 5, false⟩).state.hard_sync = true ∧
    (loops (libfixmath false false) plain_gem { example_state with hard_sync := true }
        [⟨example_adc, 6, false⟩, ⟨example_adc, 7, false⟩, ⟨example_adc, 9, false⟩]).1.hard_sync
      = true :=
  ⟨(hard_sync_idempotent (libfixmath false false) plain_gem { example_state with hard_sync := true }
      ⟨example_adc, 5, false⟩
      [⟨example_adc, 6, false⟩, ⟨example_adc, 7, false⟩, ⟨example_adc, 9, false⟩]
      rfl (by decide)).1.1,
   (hard_sync_idempotent (libfixmath false false) plain_gem { example_state with hard_sync := true }
      ⟨example_adc, 5, false⟩
      [⟨example_adc, 6, false⟩, ⟨example_adc, 7, false⟩, ⟨example_adc, 9, false⟩]
      rfl (by decide)).2.1⟩

/-- C8: a run of `loop()` in which `gem_button_tapped` reports true negates `hard_sync`
and makes exactly one pair of notifications, `gem_pulseout_hard_sync(true)` then LED mode
`GEM_LED_MODE_HARD_SYNC` when the new flag is true, `gem_pulseout_hard_sync(false)` then
LED mode `GEM_LED_MODE_NORMAL` when it is false; a second tap restores the flag; and after
any runs of `loop()` from a state with `hard_sync = false`, the last notification sent (or,
if none was sent, the initial `false` and normal mode) agrees with the flag. -/
theorem hard_sync_toggle (F : Fix16) (G : Gem) (s : State) (i j : cycle_input)
    (s0 : State) (is : List cycle_input)
    (h : i.tapped = true) (hj : j.tapped = true) (h0 : s0.hard_sync = false) :
    (loop F G s i).state.hard_sync = (!s.hard_sync) ∧
    ((loop F G s i).state.hard_sync = true →
      (loop F G s i).effects.filter is_hard_sync_notification
        = [Effect.gem_pulseout_hard_sync true,
           Effect.gem_led_animation_set_mode gem_led_mode.GEM_LED_MODE_HARD_SYNC]) ∧
    ((loop F G s i).state.hard_sync = false →
      (loop F G s i).effects.filter is_hard_sync_notification
        = [Effect.gem_pulseout_hard_sync false,
           Effect.gem_led_animation_set_mode gem_led_mode.GEM_LED_MODE_NORMAL]) ∧
    (loop F G (loop F G s i).state j).state.hard_sync = s.hard_sync ∧
    (last_hard_sync_call (loops F G s0 is).2).getD false = (loops F G s0 is).1.hard_sync ∧
    (last_led_mode_call (loops F G s0 is).2).getD gem_led_mode.GEM_LED_MODE_NORMAL
      = led_mode_of (loops F G s0 is).1.hard_sync := by
  have hr := loops_last_notification F G is s0
  rw [h0] at hr
  refine ⟨?_, ?_, ?_, ?_, hr.1, hr.2⟩
  · cases hs : s.hard_sync <;> simp [loop_hard_sync, hard_sync_check, h, hs]
  · rw [loop_effects, loop_hard_sync]
    cases hs : s.hard_sync <;> simp [hard_sync_check, h, is_hard_sync_notification]
  · rw [loop_effects, loop_hard_sync]
    cases hs : s.hard_sync <;> simp [hard_sync_check, h, is_hard_sync_notification]
  · cases hs : s.hard_sync <;> simp [loop_hard_sync, hard_sync_check, h, hj, hs]

/-- C8, at concrete cycles: a tap from the state after `init()`, and a run of four cycles
with taps in the first, second and fourth. -/
theorem hard_sync_toggle_witness :
    (loop (libfixmath false false) plain_gem example_state ⟨example_adc, 5, true⟩).state.hard_sync
      = true ∧
    (loop (libfixmath false false) plain_gem example_state ⟨example_adc, 5, true⟩).effects.filter
        is_hard_sync_notification
      = [Effect.gem_pulseout_hard_sync true,
         Effect.gem_led_animation_set_mode gem_led_mode.GEM_LED_MODE_HARD_SYNC] ∧
    last_hard_sync_call (loops (libfixmath false false) plain_gem example_state
        [⟨example_adc, 5, true⟩, ⟨example_adc, 6, true⟩, ⟨example_adc, 7, false⟩,
         ⟨example_adc, 8, true⟩]).2 = some true ∧
    (last_hard_sync_call (loops (libfixmath false false) plain_gem example_state
        [⟨example_adc, 5, true⟩, ⟨example_adc, 6, true⟩, ⟨example_adc, 7, false⟩,
         ⟨example_adc, 8, true⟩]).2).getD false
      = (loops (libfixmath false false) plain_gem example_state
        [⟨example_adc, 5, true⟩, ⟨example_adc, 6, true⟩, ⟨example_adc, 7, false⟩,
         ⟨example_adc, 8, true⟩]).1.hard_sync :=
  ⟨by decide,
   (hard_sync_toggle (libfixmath false false) plain_gem example_state ⟨example_adc, 5, true⟩
      ⟨example_adc, 6, true⟩ example_state [] rfl rfl (by decide)).2.1 (by decide),
   by decide,
   (hard_sync_toggle (libfixmath false false) plain_gem example_state ⟨example_adc, 5, true⟩
      ⟨example_adc, 6, true⟩ example_state
      [⟨example_adc, 5, true⟩, ⟨example_adc, 6, true⟩, ⟨example_adc, 7, false⟩,
       ⟨example_adc, 8, true⟩] rfl rfl (by decide)).2.2.2.2.1⟩

theorem lfm_add_of_range (no_overflow : Bool) (a b : Int)
    (h1 : -2147483648 ≤ a + b) (h2 : a + b < 2147483648) : lfm_add no_overflow a b = a + b := by
  have hw : wrap_i32 (a + b) = a + b := wrap_i32_of_range _ h1 h2
  unfold lfm_add
  simp only [hw]
  cases no_overflow
  · simp only [Bool.false_eq_true, if_false]
    rw [if_neg]
    intro hc
    have hc1 := hc.1
    have hc2 := hc.2
    simp only [decide_eq_decide, ne_eq] at hc1 hc2
    omega
  · simp

theorem lfm_mul_whole_left (no_overflow no_rounding : Bool) (n x : Int)
    (h1 : -2147483648 ≤ n * x) (h2 : n * x < 2147483648) :
    lfm_mul no_overflow no_rounding (n * 65536) x = n * x := by
  have hc : lfm_mul no_overflow no_rounding (n * 65536) x
      = lfm_mul no_overflow no_rounding x (n * 65536) := by
    unfold lfm_mul
    rw [mul_comm]
  rw [hc, mul_comm n x]
  exact lfm_mul_whole _ _ _ _ (by rw [mul_comm]; exact h1) (by rw [mul_comm]; exact h2)

theorem lfm_div_nonneg (no_overflow no_rounding : Bool) (a b : Int) (ha : 0 ≤ a) (hb : 0 < b)
    (hq : a * 131072 / b < 4294967295) :
    lfm_div no_overflow no_rounding a b
      = (a * 131072 / b + (if no_rounding then 0 else 1)) / 2 := by
  have h0 : 0 ≤ a * 131072 / b := Int.ediv_nonneg (by omega) (by omega)
  have hna : (a.natAbs : Int) = a := Int.natAbs_of_nonneg ha
  have hnb : (b.natAbs : Int) = b := Int.natAbs_of_nonneg (by omega)
  have hbz : b ≠ 0 := by omega
  have hs : decide (0 ≤ a) = decide (0 ≤ b) := by
    simp only [decide_eq_decide]; omega
  unfold lfm_div
  simp only [hna, hnb, if_neg hbz, hs, ne_eq, not_true_eq_false, if_false]
  generalize a * 131072 / b = q at hq h0
  have hov : decide (4294967296 ≤ q) = false := by simp; omega
  simp only [hov, Bool.and_false, Bool.false_eq_true, if_false]
  cases no_rounding <;> simp only [wrap_u32, wrap_i32, Bool.false_eq_true, if_false, if_true] <;> omega

/-- The normalised value of an inverted code `n` in `[0, 4095]`, in closed form. -/
theorem normalized_code_eq (no_overflow no_rounding : Bool) (n : Int) (h0 : 0 ≤ n) (h1 : n ≤ 4095) :
    lfm_div no_overflow no_rounding (lfm_from_int n) (F16 4095)
      = (n * 8589934592 / 268369920 + (if no_rounding then 0 else 1)) / 2 := by
  rw [lfm_from_int_of_range n (by omega) (by omega)]
  have h := lfm_div_nonneg no_overflow no_rounding (n * 65536) (F16 4095) (by omega)
    (by simp [F16]) (by simp only [F16]; omega)
  rw [h]
  simp only [F16]
  have e : n * 65536 * 131072 = n * 8589934592 := by ring
  rw [e]
  norm_num

/-- The base pitch voltage of an inverted code `n` in `[0, 4095]` with base offset 1.0 V and
input range 6.0 V: no operation overflows, and the result is `F16(1.0) + 6 * d` for the
normalised value `d`. -/
theorem base_pitch_voltage_eq (no_overflow no_rounding : Bool) (G : Gem)
    (hB : G.GEM_CV_BASE_OFFSET = F16 1) (hR : G.GEM_CV_INPUT_RANGE = F16 6)
    (n : Int) (h0 : 0 ≤ n) (h1 : n ≤ 4095) :
    lfm_mul no_overflow no_rounding (F16 6)
        (lfm_div no_overflow no_rounding (lfm_from_int n) (F16 4095))
      = 6 * lfm_div no_overflow no_rounding (lfm_from_int n) (F16 4095) ∧
    base_pitch_voltage (libfixmath no_overflow no_rounding) G n
      = F16 1 + 6 * lfm_div no_overflow no_rounding (lfm_from_int n) (F16 4095) := by
  have hd := normalized_code_eq no_overflow no_rounding n h0 h1
  have hr : 0 ≤ lfm_div no_overflow no_rounding (lfm_from_int n) (F16 4095) ∧
      lfm_div no_overflow no_rounding (lfm_from_int n) (F16 4095) ≤ 65536 := by
    rw [hd]
    cases no_rounding <;> simp only [Bool.false_eq_true, if_false, if_true] <;> omega
  simp only [base_pitch_voltage, libfixmath, hB, hR]
  generalize lfm_div no_overflow no_rounding (lfm_from_int n) (F16 4095) = d at hd hr ⊢
  have hm : lfm_mul no_overflow no_rounding (F16 6) d = 6 * d :=
    lfm_mul_whole_left _ _ 6 d (by omega) (by omega)
  refine ⟨hm, ?_⟩
  rw [hm]
  exact lfm_add_of_range _ _ _ (by simp only [F16]; omega) (by simp only [F16]; omega)

theorem loop_castor_base (F : Fix16) (G : Gem) (s : State) (i : cycle_input) :
    (loop F G s i).castor_base = base_pitch_voltage F G (inverted_code i.adc.GEM_IN_CV_A) := rfl

/-- C11: with leader raw CV code 0, base offset `F16(1.0)` and input range `F16(6.0)`, the
normalised code `fix16_div(fix16_from_int(4095), F16(4095.0))` is `F16(1.0)`, the leader's
base pitch voltage `fix16_add(base, fix16_mul(range, ...))` computed by `loop()` is exactly
`F16(7.0)`, and the limiter leaves `F16(7.0)` unchanged; in every build of the fixed-point
library. -/
theorem end_to_end_example (no_overflow no_rounding : Bool) (G : Gem) (s : State)
    (i : cycle_input) (hB : G.GEM_CV_BASE_OFFSET = F16 1) (hR : G.GEM_CV_INPUT_RANGE = F16 6)
    (h : i.adc.GEM_IN_CV_A = 0) :
    (libfixmath no_overflow no_rounding).fix16_div
        ((libfixmath no_overflow no_rounding).fix16_from_int 4095) (F16 4095) = F16 1 ∧
    (loop (libfixmath no_overflow no_rounding) G s i).castor_base
      = (libfixmath no_overflow no_rounding).fix16_add (F16 1)
          ((libfixmath no_overflow no_rounding).fix16_mul (F16 6)
            ((libfixmath no_overflow no_rounding).fix16_div
              ((libfixmath no_overflow no_rounding).fix16_from_int 4095) (F16 4095))) ∧
    (loop (libfixmath no_overflow no_rounding) G s i).castor_base = F16 7 ∧
    clamp_pitch_cv (F16 7) = F16 7 := by
  have hc : inverted_code 0 = 4095 := by decide
  rw [loop_castor_base, h, hc]
  simp only [base_pitch_voltage, hB, hR]
  cases no_overflow <;> cases no_rounding <;> decide

/-- C11, at a concrete cycle. -/
theorem end_to_end_example_witness :
    (loop (libfixmath false false) plain_gem example_state
        ⟨{ example_adc with GEM_IN_CV_A := 0 }, 5, false⟩).castor_base = F16 7 ∧
    clamp_pitch_cv (F16 7) = F16 7 :=
  (end_to_end_example false false plain_gem example_state
      ⟨{ example_adc with GEM_IN_CV_A := 0 }, 5, false⟩ rfl rfl rfl).2.2

/-- C19: with base offset `F16(1.0)` and input range `F16(6.0)`, for raw CV codes
`0 <= c1 <= c2 <= 4095` the base pitch voltage computed by `loop()` lies in
`[F16(1.0), F16(7.0)]`, is `F16(1.0)` at code 4095 and `F16(7.0)` at code 0, does not
increase from `c1` to `c2`, and is computed without overflow: `fix16_from_int` yields the
code times 65536, the normalised value `d` lies in `[0, F16(1.0)]`, the product is `6 * d`
and the sum is `F16(1.0) + 6 * d`; in every build of the fixed-point library. -/
theorem base_pitch_voltage_range (no_overflow no_rounding : Bool) (G : Gem) (s : State)
    (i : cycle_input) (c1 c2 : Int)
    (hB : G.GEM_CV_BASE_OFFSET = F16 1) (hR : G.GEM_CV_INPUT_RANGE = F16 6)
    (h0 : 0 ≤ c1) (h12 : c1 ≤ c2) (h2 : c2 ≤ 4095) (hi : i.adc.GEM_IN_CV_A = c1) :
    (loop (libfixmath no_overflow no_rounding) G s i).castor_base
      = base_pitch_voltage (libfixmath no_overflow no_rounding) G (4095 - c1) ∧
    (F16 1 ≤ base_pitch_voltage (libfixmath no_overflow no_rounding) G (4095 - c1) ∧
      base_pitch_voltage (libfixmath no_overflow no_rounding) G (4095 - c1) ≤ F16 7) ∧
    base_pitch_voltage (libfixmath no_overflow no_rounding) G (4095 - 4095) = F16 1 ∧
    base_pitch_voltage (libfixmath no_overflow no_rounding) G (4095 - 0) = F16 7 ∧
    base_pitch_voltage (libfixmath no_overflow no_rounding) G (4095 - c2)
      ≤ base_pitch_voltage (libfixmath no_overflow no_rounding) G (4095 - c1) ∧
    (lfm_from_int (4095 - c1) = (4095 - c1) * 65536 ∧
      (0 ≤ lfm_div no_overflow no_rounding (lfm_from_int (4095 - c1)) (F16 4095) ∧
        lfm_div no_overflow no_rounding (lfm_from_int (4095 - c1)) (F16 4095) ≤ F16 1) ∧
      lfm_mul no_overflow no_rounding (F16 6)
          (lfm_div no_overflow no_rounding (lfm_from_int (4095 - c1)) (F16 4095))
        = 6 * lfm_div no_overflow no_rounding (lfm_from_int (4095 - c1)) (F16 4095) ∧
      base_pitch_voltage (libfixmath no_overflow no_rounding) G (4095 - c1)
        = F16 1 + 6 * lfm_div no_overflow no_rounding (lfm_from_int (4095 - c1)) (F16 4095)) := by
  have hinv : inverted_code c1 = 4095 - c1 := by
    simp only [inverted_code, wrap_u16, wrap_u32]; omega
  have e1 := base_pitch_voltage_eq no_overflow no_rounding G hB hR (4095 - c1) (by omega) (by omega)
  have e2 := base_pitch_voltage_eq no_overflow no_rounding G hB hR (4095 - c2) (by omega) (by omega)
  have ea := base_pitch_voltage_eq no_overflow no_rounding G hB hR (4095 - 4095) (by omega) (by omega)
  have eb := base_pitch_voltage_eq no_overflow no_rounding G hB hR (4095 - 0) (by omega) (by omega)
  have d1 := normalized_code_eq no_overflow no_rounding (4095 - c1) (by omega) (by omega)
  have d2 := normalized_code_eq no_overflow no_rounding (4095 - c2) (by omega) (by omega)
  have da := normalized_code_eq no_overflow no_rounding (4095 - 4095) (by omega) (by omega)
  have db := normalized_code_eq no_overflow no_rounding (4095 - 0) (by omega) (by omega)
  have hf := lfm_from_int_of_range (4095 - c1) (by omega) (by omega)
  rw [loop_castor_base, hi, hinv]
  refine ⟨rfl, ?_, ?_, ?_, ?_, hf, ?_, e1.1, e1.2⟩
  · rw [e1.2, d1]
    cases no_rounding <;> simp only [F16, Bool.false_eq_true, if_false, if_true] <;> omega
  · rw [ea.2, da]
    cases no_rounding <;> simp [F16]
  · rw [eb.2, db]
    cases no_rounding <;> simp [F16]
  · rw [e1.2, e2.2, d1, d2]
    cases no_rounding <;> simp only [F16, Bool.false_eq_true, if_false, if_true] <;> omega
  · rw [d1]
    cases no_rounding <;> simp only [F16, Bool.false_eq_true, if_false, if_true] <;> omega

/-- C19, at concrete codes 1000 and 3000. -/
theorem base_pitch_voltage_range_witness :
    base_pitch_voltage (libfixmath false false) plain_gem (4095 - 3000)
      ≤ base_pitch_voltage (libfixmath false false) plain_gem (4095 - 1000) ∧
    F16 1 ≤ base_pitch_voltage (libfixmath false false) plain_gem (4095 - 1000) :=
  ⟨(base_pitch_voltage_range false false plain_gem example_state
      ⟨{ example_adc with GEM_IN_CV_A := 1000 }, 5, false⟩ 1000 3000 rfl rfl
      (by decide) (by decide) (by decide) rfl).2.2.2.2.1,
   (base_pitch_voltage_range false false plain_gem example_state
      ⟨{ example_adc with GEM_IN_CV_A := 1000 }, 5, false⟩ 1000 3000 rfl rfl
      (by decide) (by decide) (by decide) rfl).2.1.1⟩

/-! ## Output commit (lines 231-248) -/

/-- The calls of one run of `loop()`: the hard sync check, the timer commit, the DAC write. -/
theorem loop_trace (F : Fix16) (G : Gem) (s : State) (i : cycle_input) :
    (loop F G s i).effects
      = (hard_sync_check s.hard_sync i.tapped).2
        ++ [Effect.disable_irq,
            Effect.gem_pulseout_set_period 0 (loop F G s i).state.castor.params.voltage_and_period.period,
            Effect.gem_pulseout_set_period 1 (loop F G s i).state.pollux.params.voltage_and_period.period,
            Effect.enable_irq,
            Effect.gem_mcp_4728_write_channels
              ⟨(loop F G s i).state.castor.params.dac_codes.castor, 1⟩
              ⟨(loop F G s i).castor_duty, 0⟩
              ⟨(loop F G s i).state.pollux.params.dac_codes.pollux, 1⟩
              ⟨(loop F G s i).pollux_duty, 0⟩] := rfl

theorem hard_sync_check_no_commit (hard_sync tapped : Bool) :
    (hard_sync_check hard_sync tapped).2.filter is_timer_commit_effect = [] ∧
    dac_writes (hard_sync_check hard_sync tapped).2 = [] ∧
    (∀ b, period_writes_masked b (hard_sync_check hard_sync tapped).2 = true) ∧
    (∀ b, irq_enabled_after b (hard_sync_check hard_sync tapped).2 = b) := by
  cases hard_sync <;> cases tapped <;>
    simp [hard_sync_check, is_timer_commit_effect, dac_writes, period_writes_masked,
      irq_enabled_after]

theorem irq_enabled_after_append (a c : List Effect) :
    ∀ b : Bool, irq_enabled_after b (a ++ c) = irq_enabled_after (irq_enabled_after b a) c := by
  induction a with
  | nil => intro b; rfl
  | cons e es ih =>
    intro b
    cases e <;> simp [irq_enabled_after, ih]

theorem period_writes_masked_append (a c : List Effect) :
    ∀ b : Bool, period_writes_masked b (a ++ c)
      = (period_writes_masked b a && period_writes_masked (irq_enabled_after b a) c) := by
  induction a with
  | nil => intro b; simp [period_writes_masked, irq_enabled_after]
  | cons e es ih =>
    intro b
    cases e <;> simp [period_writes_masked, irq_enabled_after, ih, Bool.and_assoc]

/-- One run of `loop()` writes periods only under a disabled interrupt mask and leaves
interrupts enabled, whatever the mask was before. -/
theorem loop_masked (F : Fix16) (G : Gem) (s : State) (i : cycle_input) (b : Bool) :
    period_writes_masked b (loop F G s i).effects = true ∧
    irq_enabled_after b (loop F G s i).effects = true := by
  have h := hard_sync_check_no_commit s.hard_sync i.tapped
  rw [loop_trace, period_writes_masked_append, irq_enabled_after_append, h.2.2.1 b, h.2.2.2 b]
  simp [period_writes_masked, irq_enabled_after]

/-- Consecutive passes of the polling loop, started with interrupts enabled, write periods
only under a disabled interrupt mask and leave interrupts enabled. -/
theorem main_passes_masked (F : Fix16) (G : Gem) (ps : List poll_input) :
    ∀ s : State, period_writes_masked true (main_passes F G s ps).2 = true ∧
      irq_enabled_after true (main_passes F G s ps).2 = true := by
  induction ps with
  | nil => intro s; simp [main_passes, period_writes_masked, irq_enabled_after]
  | cons p ps ih =>
    intro s
    have h1 : period_writes_masked true (main_pass F G s p).2 = true ∧
        irq_enabled_after true (main_pass F G s p).2 = true := by
      cases hr : p.adc_results_ready
      · simp [main_pass, hr, period_writes_masked, irq_enabled_after]
      · have hl := loop_masked F G s p.cycle true
        simp only [main_pass, hr, if_true]
        simpa [period_writes_masked, irq_enabled_after] using hl
    have h2 := ih (main_pass F G s p).1
    simp only [main_passes, period_writes_masked_append, irq_enabled_after_append, h1.1, h1.2,
      h2.1, h2.2, Bool.and_self, and_self]

/-- C12: in the trace of every run of `loop()`, `__disable_irq()`, the period write for
channel 0 (Castor's period), the period write for channel 1 (Pollux's period) and
`__enable_irq()` are consecutive and in that order, and they are the only interrupt mask
changes and period writes of the run; every period write is made with interrupts disabled
and interrupts are enabled after the run, in every run and over any number of passes of
the polling loop. -/
theorem timer_commit_atomic (F : Fix16) (G : Gem) (s : State) (i : cycle_input)
    (ps : List poll_input) (mask : Bool) :
    (loop F G s i).effects
      = (hard_sync_check s.hard_sync i.tapped).2
        ++ [Effect.disable_irq,
            Effect.gem_pulseout_set_period 0 (loop F G s i).state.castor.params.voltage_and_period.period,
            Effect.gem_pulseout_set_period 1 (loop F G s i).state.pollux.params.voltage_and_period.period,
            Effect.enable_irq]
        ++ [Effect.gem_mcp_4728_write_channels
              ⟨(loop F G s i).state.castor.params.dac_codes.castor, 1⟩
              ⟨(loop F G s i).castor_duty, 0⟩
              ⟨(loop F G s i).state.pollux.params.dac_codes.pollux, 1⟩
              ⟨(loop F G s i).pollux_duty, 0⟩] ∧
    (loop F G s i).effects.filter is_timer_commit_effect
      = [Effect.disable_irq,
         Effect.gem_pulseout_set_period 0 (loop F G s i).state.castor.params.voltage_and_period.period,
         Effect.gem_pulseout_set_period 1 (loop F G s i).state.pollux.params.voltage_and_period.period,
         Effect.enable_irq] ∧
    period_writes_masked mask (loop F G s i).effects = true ∧
    irq_enabled_after mask (loop F G s i).effects = true ∧
    period_writes_masked true (main_passes F G s ps).2 = true ∧
    irq_enabled_after true (main_passes F G s ps).2 = true := by
  have h := hard_sync_check_no_commit s.hard_sync i.tapped
  refine ⟨?_, ?_, (loop_masked F G s i mask).1, (loop_masked F G s i mask).2,
    (main_passes_masked F G ps s).1, (main_passes_masked F G ps s).2⟩
  · rw [loop_trace]
    simp
  · rw [loop_trace, List.filter_append, h.1]
    simp [is_timer_commit_effect]

/-- C13: every run of `loop()` makes exactly one `gem_mcp_4728_write_channels` call, as the
last call of the run, right after `__enable_irq()`; its channels are Castor's looked-up DAC
code with `vref = 1`, Castor's duty code with `vref = 0`, Pollux's looked-up DAC code with
`vref = 1` and Pollux's duty code with `vref = 0`, where the looked-up codes are those of
`gem_voice_params_from_cv` at the limited pitch CVs and the duty codes are the saturated
ones. -/
theorem dac_write_order (F : Fix16) (G : Gem) (s : State) (i : cycle_input) :
    dac_writes (loop F G s i).effects
      = [(⟨(G.gem_voice_params_from_cv (loop F G s i).castor_pitch_cv s.castor.params).dac_codes.castor, 1⟩,
          ⟨duty_code i.adc.GEM_IN_DUTY_A_POT i.adc.GEM_IN_DUTY_A, 0⟩,
          ⟨(G.gem_voice_params_from_cv (loop F G s i).pollux_pitch_cv s.pollux.params).dac_codes.pollux, 1⟩,
          ⟨duty_code i.adc.GEM_IN_DUTY_B_POT i.adc.GEM_IN_DUTY_B, 0⟩)] ∧
    (loop F G s i).effects
      = ((hard_sync_check s.hard_sync i.tapped).2
          ++ [Effect.disable_irq,
              Effect.gem_pulseout_set_period 0
                (loop F G s i).state.castor.params.voltage_and_period.period,
              Effect.gem_pulseout_set_period 1
                (loop F G s i).state.pollux.params.voltage_and_period.period,
              Effect.enable_irq])
        ++ [Effect.gem_mcp_4728_write_channels
              ⟨(loop F G s i).state.castor.params.dac_codes.castor, 1⟩
              ⟨(loop F G s i).castor_duty, 0⟩
              ⟨(loop F G s i).state.pollux.params.dac_codes.pollux, 1⟩
              ⟨(loop F G s i).pollux_duty, 0⟩] ∧
    dac_writes ((hard_sync_check s.hard_sync i.tapped).2
          ++ [Effect.disable_irq,
              Effect.gem_pulseout_set_period 0
                (loop F G s i).state.castor.params.voltage_and_period.period,
              Effect.gem_pulseout_set_period 1
                (loop F G s i).state.pollux.params.voltage_and_period.period,
              Effect.enable_irq]) = [] ∧
    (loop F G s i).state.castor.params
      = G.gem_voice_params_from_cv (loop F G s i).castor_pitch_cv s.castor.params ∧
    (loop F G s i).state.pollux.params
      = G.gem_voice_params_from_cv (loop F G s i).pollux_pitch_cv s.pollux.params ∧
    (loop F G s i).castor_duty = duty_code i.adc.GEM_IN_DUTY_A_POT i.adc.GEM_IN_DUTY_A ∧
    (loop F G s i).pollux_duty = duty_code i.adc.GEM_IN_DUTY_B_POT i.adc.GEM_IN_DUTY_B := by
  have h := hard_sync_check_no_commit s.hard_sync i.tapped
  have happ : ∀ a c : List Effect, dac_writes (a ++ c) = dac_writes a ++ dac_writes c := by
    intro a c
    induction a with
    | nil => rfl
    | cons e es ih => cases e <;> simp [dac_writes, ih]
  refine ⟨?_, ?_, ?_, rfl, rfl, rfl, rfl⟩
  · rw [loop_trace, happ, h.2.1]
    rfl
  · rw [loop_trace]
    simp
  · rw [happ, h.2.1]
    rfl

/-! ## Knob range sign (lines 60-64) -/

theorem lfm_sub_of_ge (no_overflow : Bool) (a b : Int) (hab : b ≤ a)
    (hd : a - b < 2147483648) : lfm_sub no_overflow a b = a - b := by
  have hw : wrap_i32 (a - b) = a - b := wrap_i32_of_range _ (by omega) hd
  unfold lfm_sub
  simp only [hw]
  cases no_overflow
  · simp only [Bool.false_eq_true, if_false]
    rw [if_neg]
    intro hc
    have hc1 := hc.1
    have hc2 := hc.2
    simp only [decide_eq_decide, ne_eq] at hc1 hc2
    omega
  · simp

/-- C14 as stated fails: with Pollux knob bounds `-1` and `2147483647` (raw `fix16_t`
values, maximum above minimum) the difference does not fit `fix16_t`, and `init()` stores
a negative `knob_range` for both oscillators. -/
theorem knob_range_nonneg_counterexample :
    example_settings.castor_knob_min ≤ example_settings.castor_knob_max ∧
    (-1 : Int) ≤ 2147483647 ∧
    (init (libfixmath false false)
        { example_settings with pollux_knob_min := -1, pollux_knob_max := 2147483647 }
        initial_state).pollux.knob_range < F16 0 ∧
    (init (libfixmath false false)
        { example_settings with pollux_knob_min := -1, pollux_knob_max := 2147483647 }
        initial_state).castor.knob_range < F16 0 := by
  decide

/-- The failure of C14 does not depend on how the fixed-point library is built. -/
theorem knob_range_negative_in_every_build :
    ∀ no_overflow no_rounding : Bool,
      (init (libfixmath no_overflow no_rounding)
          { example_settings with pollux_knob_min := -1, pollux_knob_max := 2147483647 }
          initial_state).pollux.knob_range < F16 0 := by
  decide

/-- C14, amended: for settings in which each channel's knob maximum is at least its knob
minimum and each channel's difference maximum minus minimum fits `fix16_t` (is below
`2^31`), the `knob_range` stored by `init()` for each oscillator is at least `F16(0)`, and
Pollux's is exactly its maximum minus its minimum. (Both stored ranges come from Pollux's
bounds, lines 60 and 64, so the proof uses the two conditions on Pollux only.) -/
theorem knob_range_nonneg (no_overflow no_rounding : Bool) (loaded : gem_settings) (s : State)
    (_hc : loaded.castor_knob_min ≤ loaded.castor_knob_max)
    (hp : loaded.pollux_knob_min ≤ loaded.pollux_knob_max)
    (_hcd : loaded.castor_knob_max - loaded.castor_knob_min < 2147483648)
    (hpd : loaded.pollux_knob_max - loaded.pollux_knob_min < 2147483648) :
    F16 0 ≤ (init (libfixmath no_overflow no_rounding) loaded s).castor.knob_range ∧
    F16 0 ≤ (init (libfixmath no_overflow no_rounding) loaded s).pollux.knob_range ∧
    (init (libfixmath no_overflow no_rounding) loaded s).pollux.knob_range
      = loaded.pollux_knob_max - loaded.pollux_knob_min := by
  have h := lfm_sub_of_ge no_overflow loaded.pollux_knob_max loaded.pollux_knob_min hp hpd
  have e1 : (init (libfixmath no_overflow no_rounding) loaded s).castor.knob_range
      = lfm_sub no_overflow loaded.pollux_knob_max loaded.pollux_knob_min := rfl
  have e2 : (init (libfixmath no_overflow no_rounding) loaded s).pollux.knob_range
      = lfm_sub no_overflow loaded.pollux_knob_max loaded.pollux_knob_min := rfl
  rw [e1, e2, h]
  simp only [F16]
  exact ⟨by omega, by omega, trivial⟩

/-- C14, amended, at the example settings. -/
theorem knob_range_nonneg_witness :
    F16 0 ≤ (init (libfixmath false false) example_settings initial_state).castor.knob_range ∧
    F16 0 ≤ (init (libfixmath false false) example_settings initial_state).pollux.knob_range :=
  ⟨(knob_range_nonneg false false example_settings initial_state (by decide) (by decide)
      (by decide) (by decide)).1,
   (knob_range_nonneg false false example_settings initial_state (by decide) (by decide)
      (by decide) (by decide)).2.1⟩

/-! ## Chorus injection (lines 149-172) -/

theorem lfm_mul_zero_left (no_overflow no_rounding : Bool) (x : Int) :
    lfm_mul no_overflow no_rounding 0 x = 0 := by
  have h := lfm_mul_whole_left no_overflow no_rounding 0 x (by omega) (by omega)
  simpa using h

theorem lfm_mul_zero_right (no_overflow no_rounding : Bool) (x : Int) :
    lfm_mul no_overflow no_rounding x 0 = 0 := by
  have h := lfm_mul_whole no_overflow no_rounding x 0 (by omega) (by omega)
  simpa using h

theorem lfm_div_zero (no_overflow no_rounding : Bool) :
    lfm_div no_overflow no_rounding (lfm_from_int 0) (F16 4095) = 0 := by
  cases no_overflow <;> cases no_rounding <;> decide

/-- C15: in every run of `loop()` Pollux's pitch CV before the limiter is
`fix16_add(s, m)`, where `s` is the output of Pollux's smoothing step of this run and
`m = fix16_mul(chorus_max_intensity, fix16_mul(fix16_div(fix16_from_int(inverted chorus pot
code), F16(4095.0)), gem_triangle(phase)))` at the phase stored by this run's LFO update;
the smoothing state kept for the next run is that of the smoothing step, which does not see
`m`. With a chorus pot code of 4095 and `s` a `fix16_t` value, `m` is 0 and the pitch CV
before the limiter is `s`, in every build of the fixed-point library. -/
theorem chorus_injection (F : Fix16) (G : Gem) (s : State) (i : cycle_input)
    (no_overflow no_rounding : Bool) :
    (loop F G s i).pollux_unclamped
      = F.fix16_add (loop F G s i).pollux_smoothed (loop F G s i).chorus_lfo_mod ∧
    (loop F G s i).pollux_smoothed
      = (G.gem_smoothie_step s.pollux.smooth (loop F G s i).pollux_pitch_cv_resolved).2 ∧
    (loop F G s i).state.pollux.smooth
      = (G.gem_smoothie_step s.pollux.smooth (loop F G s i).pollux_pitch_cv_resolved).1 ∧
    (loop F G s i).chorus_lfo_mod
      = F.fix16_mul s.settings.chorus_max_intensity
          (F.fix16_mul
            (F.fix16_div (F.fix16_from_int (inverted_code i.adc.GEM_IN_CHORUS_POT)) (F16 4095))
            (G.gem_triangle (loop F G s i).state.lfo.phase)) ∧
    (loop F G s i).state.lfo = lfo_update F s.settings.chorus_frequency s.lfo i.now ∧
    (0 ≤ i.adc.GEM_IN_CHORUS_POT → i.adc.GEM_IN_CHORUS_POT ≤ 4095 →
      inverted_code i.adc.GEM_IN_CHORUS_POT = 4095 - i.adc.GEM_IN_CHORUS_POT) ∧
    (loop F G s i).pollux_pitch_cv = clamp_pitch_cv (loop F G s i).pollux_unclamped ∧
    (i.adc.GEM_IN_CHORUS_POT = 4095 →
      -2147483648 ≤ (loop (libfixmath no_overflow no_rounding) G s i).pollux_smoothed →
      (loop (libfixmath no_overflow no_rounding) G s i).pollux_smoothed < 2147483648 →
      (loop (libfixmath no_overflow no_rounding) G s i).chorus_lfo_mod = 0 ∧
      (loop (libfixmath no_overflow no_rounding) G s i).pollux_unclamped
        = (loop (libfixmath no_overflow no_rounding) G s i).pollux_smoothed) := by
  refine ⟨rfl, rfl, rfl, rfl, rfl, ?_, rfl, ?_⟩
  · intro h0 h1
    simp only [inverted_code, wrap_u16, wrap_u32]
    omega
  · intro hpot hlo hhi
    have hm : (loop (libfixmath no_overflow no_rounding) G s i).chorus_lfo_mod = 0 := by
      have hc : inverted_code 4095 = 0 := by decide
      simp only [loop, chorus_mod, hpot, hc, libfixmath, lfm_div_zero, lfm_mul_zero_left,
        lfm_mul_zero_right]
    refine ⟨hm, ?_⟩
    have hu : (loop (libfixmath no_overflow no_rounding) G s i).pollux_unclamped
        = lfm_add no_overflow (loop (libfixmath no_overflow no_rounding) G s i).pollux_smoothed
            (loop (libfixmath no_overflow no_rounding) G s i).chorus_lfo_mod := rfl
    rw [hu, hm]
    have ha := lfm_add_of_range no_overflow
      (loop (libfixmath no_overflow no_rounding) G s i).pollux_smoothed 0
      (by omega) (by omega)
    rw [ha]
    omega

/-- C15, at a concrete cycle with the chorus pot at raw code 4095. -/
theorem chorus_injection_witness :
    (loop (libfixmath false false) plain_gem example_state
        ⟨{ example_adc with GEM_IN_CHORUS_POT := 4095 }, 300, false⟩).chorus_lfo_mod = 0 ∧
    (loop (libfixmath false false) plain_gem example_state
        ⟨{ example_adc with GEM_IN_CHORUS_POT := 4095 }, 300, false⟩).pollux_unclamped
      = (loop (libfixmath false false) plain_gem example_state
          ⟨{ example_adc with GEM_IN_CHORUS_POT := 4095 }, 300, false⟩).pollux_smoothed :=
  (chorus_injection (libfixmath false false) plain_gem example_state
      ⟨{ example_adc with GEM_IN_CHORUS_POT := 4095 }, 300, false⟩ false false).2.2.2.2.2.2.2
    rfl (by decide) (by decide)

/-! ## The polling loop (lines 251-265) -/

/-- C16: a pass of the polling loop in which `gem_adc_results_ready()` is false does not
run `loop()`: all file-scope variables (oscillator states, LFO state, `hard_sync`) are
unchanged and the calls made are exactly `gem_usb_task`, `gem_midi_task` and
`gem_led_animation_step`, in that order, so no period write, hard sync notification,
interrupt mask change or DAC write is made. -/
theorem noop_pass (F : Fix16) (G : Gem) (s : State) (p : poll_input)
    (h : p.adc_results_ready = false) :
    (main_pass F G s p).1 = s ∧
    ((main_pass F G s p).1.castor = s.castor ∧ (main_pass F G s p).1.pollux = s.pollux ∧
      (main_pass F G s p).1.lfo = s.lfo ∧ (main_pass F G s p).1.hard_sync = s.hard_sync) ∧
    (main_pass F G s p).2
      = [Effect.gem_usb_task, Effect.gem_midi_task, Effect.gem_led_animation_step] ∧
    (main_pass F G s p).2.filter is_timer_commit_effect = [] ∧
    (main_pass F G s p).2.filter is_hard_sync_notification = [] ∧
    dac_writes (main_pass F G s p).2 = [] := by
  have hs : main_pass F G s p
      = (s, [Effect.gem_usb_task, Effect.gem_midi_task, Effect.gem_led_animation_step]) := by
    simp [main_pass, h]
  rw [hs]
  simp [is_timer_commit_effect, is_hard_sync_notification, dac_writes]

/-- C16, at a concrete pass without ready ADC results. -/
theorem noop_pass_witness :
    (main_pass (libfixmath false false) plain_gem example_state
        ⟨false, ⟨example_adc, 5, true⟩⟩).1 = example_state ∧
    (main_pass (libfixmath false false) plain_gem example_state
        ⟨false, ⟨example_adc, 5, true⟩⟩).2
      = [Effect.gem_usb_task, Effect.gem_midi_task, Effect.gem_led_animation_step] :=
  ⟨(noop_pass (libfixmath false false) plain_gem example_state
      ⟨false, ⟨example_adc, 5, true⟩⟩ rfl).1,
   (noop_pass (libfixmath false false) plain_gem example_state
      ⟨false, ⟨example_adc, 5, true⟩⟩ rfl).2.2.1⟩

/-! ## Smoothing (lines 23-39, 60-66, 149-151) -/

/-- C17: in every run of `loop()` Castor's pitch CV is the output of one
`gem_smoothie_step` on `castor.smooth` and Pollux's of one `gem_smoothie_step` on
`pollux.smooth`, each applied to the resolved CV (base plus fine-tune), and the filter
state each oscillator keeps is the one its own step returns; Castor's smoothed CV and kept
filter state do not depend on `pollux.smooth`, nor Pollux's on `castor.smooth`; after
`init()` both filters hold the initial gain and sensitivity of the settings and both
low-pass accumulators are `F16(0)`. -/
theorem smoothing_per_oscillator (F : Fix16) (G : Gem) (s : State) (i : cycle_input)
    (loaded : gem_settings) (other : gem_smoothie_state) :
    ((loop F G s i).castor_pitch_cv_resolved
        = F.fix16_add (loop F G s i).castor_base (loop F G s i).castor_pitch_knob ∧
      (loop F G s i).castor_smoothed
        = (G.gem_smoothie_step s.castor.smooth (loop F G s i).castor_pitch_cv_resolved).2 ∧
      (loop F G s i).state.castor.smooth
        = (G.gem_smoothie_step s.castor.smooth (loop F G s i).castor_pitch_cv_resolved).1 ∧
      (loop F G s i).castor_unclamped = (loop F G s i).castor_smoothed) ∧
    ((loop F G s i).pollux_pitch_cv_resolved
        = F.fix16_add (loop F G s i).pollux_base (loop F G s i).pollux_pitch_knob ∧
      (loop F G s i).pollux_smoothed
        = (G.gem_smoothie_step s.pollux.smooth (loop F G s i).pollux_pitch_cv_resolved).2 ∧
      (loop F G s i).state.pollux.smooth
        = (G.gem_smoothie_step s.pollux.smooth (loop F G s i).pollux_pitch_cv_resolved).1) ∧
    ((loop F G { s with pollux := { s.pollux with smooth := other } } i).castor_smoothed
        = (loop F G s i).castor_smoothed ∧
      (loop F G { s with pollux := { s.pollux with smooth := other } } i).state.castor.smooth
        = (loop F G s i).state.castor.smooth) ∧
    ((loop F G { s with castor := { s.castor with smooth := other } } i).pollux_smoothed
        = (loop F G s i).pollux_smoothed ∧
      (loop F G { s with castor := { s.castor with smooth := other } } i).state.pollux.smooth
        = (loop F G s i).state.pollux.smooth) ∧
    (init F loaded initial_state).castor.smooth
      = ⟨loaded.smooth_initial_gain, loaded.smooth_sensitivity, F16 0, F16 0⟩ ∧
    (init F loaded initial_state).pollux.smooth
      = ⟨loaded.smooth_initial_gain, loaded.smooth_sensitivity, F16 0, F16 0⟩ := by
  exact ⟨⟨rfl, rfl, rfl, rfl⟩, ⟨rfl, rfl, rfl⟩, ⟨rfl, rfl⟩, ⟨rfl, rfl⟩, rfl, rfl⟩

/-! ## Leader independence -/

theorem period_writes_loop (F : Fix16) (G : Gem) (s : State) (i : cycle_input) :
    period_writes 0 (loop F G s i).effects
      = [(loop F G s i).state.castor.params.voltage_and_period.period] ∧
    dac_writes (loop F G s i).effects
      = [(⟨(loop F G s i).state.castor.params.dac_codes.castor, 1⟩,
          ⟨(loop F G s i).castor_duty, 0⟩,
          ⟨(loop F G s i).state.pollux.params.dac_codes.pollux, 1⟩,
          ⟨(loop F G s i).pollux_duty, 0⟩)] := by
  rw [loop_trace]
  cases s.hard_sync <;> cases i.tapped <;> simp [hard_sync_check, period_writes, dac_writes]

/-- C18: two runs of `loop()` that start with the same settings, knob errors and Castor
state and read the same Castor CV, knob and duty codes, and that may differ in everything
else (Pollux's codes and state, the chorus pot, the LFO state, the tick count, the button
and the `hard_sync` flag), give the same limited Castor pitch CV, the same Castor state
with its looked-up voice parameters, the same period written to timer channel 0 and the
same first two DAC channels. -/
theorem leader_independence (F : Fix16) (G : Gem) (s t : State) (i j : cycle_input)
    (hs : t.settings = s.settings) (hk : t.knob_errors = s.knob_errors)
    (hc : t.castor = s.castor)
    (h1 : j.adc.GEM_IN_CV_A = i.adc.GEM_IN_CV_A)
    (h2 : j.adc.GEM_IN_CV_A_POT = i.adc.GEM_IN_CV_A_POT)
    (h3 : j.adc.GEM_IN_DUTY_A = i.adc.GEM_IN_DUTY_A)
    (h4 : j.adc.GEM_IN_DUTY_A_POT = i.adc.GEM_IN_DUTY_A_POT) :
    (loop F G t j).castor_pitch_cv = (loop F G s i).castor_pitch_cv ∧
    (loop F G t j).state.castor = (loop F G s i).state.castor ∧
    (loop F G t j).castor_duty = (loop F G s i).castor_duty ∧
    period_writes 0 (loop F G t j).effects = period_writes 0 (loop F G s i).effects ∧
    period_writes 0 (loop F G s i).effects
      = [(G.gem_voice_params_from_cv (loop F G s i).castor_pitch_cv
            s.castor.params).voltage_and_period.period] ∧
    (dac_writes (loop F G t j).effects).map (fun w => (w.1, w.2.1))
      = (dac_writes (loop F G s i).effects).map (fun w => (w.1, w.2.1)) ∧
    (dac_writes (loop F G s i).effects).map (fun w => (w.1, w.2.1))
      = [(⟨(G.gem_voice_params_from_cv (loop F G s i).castor_pitch_cv
              s.castor.params).dac_codes.castor, 1⟩,
          ⟨(loop F G s i).castor_duty, 0⟩)] := by
  have e1 : (loop F G t j).castor_pitch_cv = (loop F G s i).castor_pitch_cv := by
    simp only [loop, hs, hk, hc, h1, h2]
  have e2 : (loop F G t j).state.castor = (loop F G s i).state.castor := by
    simp only [loop, hs, hk, hc, h1, h2]
  have e3 : (loop F G t j).castor_duty = (loop F G s i).castor_duty := by
    simp only [loop, h3, h4]
  have p1 := period_writes_loop F G s i
  have p2 := period_writes_loop F G t j
  refine ⟨e1, e2, e3, ?_, ?_, ?_, ?_⟩
  · rw [p1.1, p2.1, e2]
  · rw [p1.1]
    rfl
  · rw [p1.2, p2.2, e2, e3]
    rfl
  · rw [p1.2]
    rfl

/-- C18, at two concrete cycles that differ in Pollux's codes, the chorus pot, the tick
count, the button and the LFO and `hard_sync` state. -/
theorem leader_independence_witness :
    (loop (libfixmath false false) plain_gem
        { example_state with lfo := ⟨30000, 10⟩, hard_sync := true }
        ⟨{ example_adc with GEM_IN_CV_B := 100, GEM_IN_CV_B_POT := 7, GEM_IN_DUTY_B := 9,
                             GEM_IN_CHORUS_POT := 0 }, 400, true⟩).castor_pitch_cv
      = (loop (libfixmath false false) plain_gem example_state
          ⟨example_adc, 5, false⟩).castor_pitch_cv ∧
    (loop (libfixmath false false) plain_gem example_state
        ⟨example_adc, 5, false⟩).castor_pitch_cv = 327600 :=
  ⟨(leader_independence (libfixmath false false) plain_gem example_state
      { example_state with lfo := ⟨30000, 10⟩, hard_sync := true }
      ⟨example_adc, 5, false⟩
      ⟨{ example_adc with GEM_IN_CV_B := 100, GEM_IN_CV_B_POT := 7, GEM_IN_DUTY_B := 9,
                           GEM_IN_CHORUS_POT := 0 }, 400, true⟩
      rfl rfl rfl rfl rfl rfl rfl).1,
   by decide⟩

end CastorPollux
